import Mathlib

/-!
# boltbrowser: the browser screen controller

A shallow embedding of `screen_browser.go`: the modal key-event handlers of
`BrowserScreen`, the cursor jumps over the visible path slice, and the state
they act on.

Conventions of the embedding.

* A Go `string` is a Lean `String`; `len(s)` is `String.utf8ByteSize`.
* A Go `[]string` held in `current_path` is a `List String`; the nil slice and
  the empty slice are identified there.  Where the source tests a returned
  slice against `nil` the value is an `Option (List String)`, `none` being nil.
* A Go `error` is an `Option String`, `none` being the nil error.
* A run-time panic (index or slice bound out of range) is the result `none` of
  a function returning `Option`.  Slices carry no capacity in this model, so a
  slice expression is in range exactly when its bound is at most the length.
* The bolt file, the terminal, the clock and the key handling of the modal
  widgets live outside `screen_browser.go`; they are the fields of `Env`.
-/

namespace BoltBrowser

/-! ## Strings and paths -/

/-- Concatenation of byte strings with a slash between consecutive elements. -/
def joinChars : List (List Char) → List Char
  | [] => []
  | [a] => a
  | a :: b :: t => a ++ '/' :: joinChars (b :: t)

/-- Pieces of a byte string between slashes; the empty string gives one empty piece. -/
def splitChars : List Char → List (List Char)
  | [] => [[]]
  | c :: cs =>
    if c = '/' then [] :: splitChars cs
    else
      match splitChars cs with
      | [] => [[c]]
      | h :: t => (c :: h) :: t

/-- Go `strings.Join(elems, "/")`, the only separator the source uses. -/
def strings.Join (elems : List String) : String :=
  ⟨joinChars (elems.map String.data)⟩

/-- Go `strings.Split(s, "/")`. -/
def strings.Split (s : String) : List String :=
  (splitChars s.data).map String.mk

/-- Go `len(s)` of a string: its length in bytes. -/
def strLen (s : String) : Int := (s.utf8ByteSize : Int)

/-- Go `fmt.Sprintf("%s", path)` of a `[]string`: the elements between square
brackets, separated by one blank. -/
def fmtPath (path : List String) : String :=
  "[" ++ " ".intercalate path ++ "]"

/-- Go `s[:k]` of a slice, `none` when the bound is out of range. -/
def sliceTo (s : List String) (k : Int) : Option (List String) :=
  if 0 ≤ k ∧ k ≤ (s.length : Int) then some (s.take k.toNat) else none

/-- Go `s[k]` of a slice, `none` when the index is out of range. -/
def indexAt (s : List String) (k : Int) : Option String :=
  if 0 ≤ k then s[k.toNat]? else none

/-- Go `s[len(s)-1] = v` on a slice, `none` when the slice is empty. -/
def setLast (s : List String) (v : String) : Option (List String) :=
  if s.length = 0 then none else some (s.set (s.length - 1) v)

/-- Function `comparePaths` of the source. -/
def comparePaths (p1 p2 : List String) : Bool :=
  strings.Join p1 == strings.Join p2

/-! ## The in-memory tree

The declarations of `BoltDB`, `BoltBucket`, `BoltPair` and their methods are
in the model file of the repository, which is not among the given sources.
They are modelled here from section 3 and section 4.2 of the specification. -/

/-- Modelled from the spec: the type `BoltPair` (a leaf with a key and a string
value), whose declaration is missing. -/
structure BoltPair where
  key : String
  val : String
deriving DecidableEq, Repr

/-- Modelled from the spec: the type `BoltBucket` (a container with a name, its
ordered pairs, its ordered child containers and the `expanded` flag), whose
declaration is missing. -/
inductive BoltBucket where
  | mk (name : String) (pairs : List BoltPair) (buckets : List BoltBucket)
      (expanded : Bool)
deriving Repr

namespace BoltBucket

/-- Field `name`. -/
def name : BoltBucket → String
  | mk n _ _ _ => n

/-- Field `pairs`. -/
def pairs : BoltBucket → List BoltPair
  | mk _ p _ _ => p

/-- Field `buckets`. -/
def buckets : BoltBucket → List BoltBucket
  | mk _ _ b _ => b

/-- Field `expanded`. -/
def expanded : BoltBucket → Bool
  | mk _ _ _ e => e

/-- Assignment `b.name = v`. -/
def setName (v : String) : BoltBucket → BoltBucket
  | mk _ p b e => mk v p b e

/-- Assignment `b.expanded = v`. -/
def setExpanded (v : Bool) : BoltBucket → BoltBucket
  | mk n p b _ => mk n p b v

/-- Replacement of the child containers. -/
def setBuckets (v : List BoltBucket) : BoltBucket → BoltBucket
  | mk n p _ e => mk n p v e

/-- Replacement of the pairs. -/
def setPairs (v : List BoltPair) : BoltBucket → BoltBucket
  | mk n _ b e => mk n v b e

end BoltBucket

/-- Modelled from the spec: the type `BoltDB` (the forest, an ordered sequence
of root containers), whose declaration is missing. -/
structure BoltDB where
  buckets : List BoltBucket
deriving Repr

/-- A `*BoltBucket` into the forest: the child indices leading to the
container, from the list of root containers downwards. -/
abbrev BucketPtr := List Nat

/-- A `*BoltPair` into the forest: the pointer to the owning container and
the index of the pair among its pairs. -/
structure PairPtr where
  owner : BucketPtr
  idx : Nat
deriving DecidableEq, Repr

/-- Position of the first container of a list with a given name. -/
def findBucket (bs : List BoltBucket) (n : String) : Option Nat :=
  bs.findIdx? (fun b => b.name == n)

/-- Position of the first pair of a list with a given key. -/
def findPair (ps : List BoltPair) (k : String) : Option Nat :=
  ps.findIdx? (fun p => p.key == k)

/-- Dereference of a `*BoltBucket`. -/
def bucketAt : List BoltBucket → BucketPtr → Option BoltBucket
  | _, [] => none
  | bs, [i] => bs[i]?
  | bs, i :: j :: rest =>
    match bs[i]? with
    | none => none
    | some b => bucketAt b.buckets (j :: rest)

/-- Dereference of a `*BoltPair`. -/
def pairAt (bs : List BoltBucket) (p : PairPtr) : Option BoltPair :=
  match bucketAt bs p.owner with
  | none => none
  | some b => b.pairs[p.idx]?

/-- In-place update of the container a `*BoltBucket` points to. -/
def modifyBucket (f : BoltBucket → BoltBucket) :
    List BoltBucket → BucketPtr → List BoltBucket
  | bs, [] => bs
  | bs, [i] =>
    match bs[i]? with
    | none => bs
    | some b => bs.set i (f b)
  | bs, i :: j :: rest =>
    match bs[i]? with
    | none => bs
    | some b => bs.set i (b.setBuckets (modifyBucket f b.buckets (j :: rest)))

/-- In-place update of the pair a `*BoltPair` points to. -/
def modifyPair (f : BoltPair → BoltPair) (bs : List BoltBucket) (p : PairPtr) :
    List BoltBucket :=
  modifyBucket
    (fun b =>
      match b.pairs[p.idx]? with
      | none => b
      | some q => b.setPairs (b.pairs.set p.idx (f q)))
    bs p.owner

/-- Modelled from the spec: `getBucketFromPath`, the container part of
`resolve(path)`: walks the forest following the segments of the path; fails
when a segment is missing or the path is empty. -/
def bucketPtrFromPath : List BoltBucket → List String → Option BucketPtr
  | _, [] => none
  | bs, [n] => (findBucket bs n).map (fun i => [i])
  | bs, n :: m :: rest =>
    match findBucket bs n with
    | none => none
    | some i =>
      match bs[i]? with
      | none => none
      | some b => (bucketPtrFromPath b.buckets (m :: rest)).map (fun a => i :: a)

/-- Modelled from the spec: the pair part of `resolve(path)`: the path without
its last segment leads to a container, the last segment is the key of one of
its pairs. -/
def pairPtrFromPath (bs : List BoltBucket) (path : List String) : Option PairPtr :=
  match path.getLast? with
  | none => none
  | some k =>
    match bucketPtrFromPath bs path.dropLast with
    | none => none
    | some a =>
      match bucketAt bs a with
      | none => none
      | some b => (findPair b.pairs k).map (fun i => ⟨a, i⟩)

/-- The three results `(b, p, e)` of `getGenericFromPath`. -/
structure Generic where
  b : Option BucketPtr
  p : Option PairPtr
  e : Option String
deriving DecidableEq, Repr

namespace BoltDB

/-- Modelled from the spec: `getBucketFromPath(path)`, which is missing from
the given sources; the error is `Invalid Path` style, never a panic. -/
def getBucketFromPath (db : BoltDB) (path : List String) :
    Option BucketPtr × Option String :=
  match bucketPtrFromPath db.buckets path with
  | some a => (some a, none)
  | none => (none, some "Invalid Path")

/-- Modelled from the spec: `getGenericFromPath(path)` is `resolve(path)`,
which is missing from the given sources.  Exactly one of container and pair
is returned on success; a missing segment is the error `NotFound`; the path
of length zero is the forest root, both nil and no error. -/
def getGenericFromPath (db : BoltDB) (path : List String) : Generic :=
  if path = [] then ⟨none, none, none⟩
  else
    match pairPtrFromPath db.buckets path with
    | some p => ⟨none, some p, none⟩
    | none =>
      match bucketPtrFromPath db.buckets path with
      | some b => ⟨some b, none, none⟩
      | none => ⟨none, none, some "Invalid Path"⟩

/-- Method `GetPath` of a container: the names from the root down to it. -/
def bucketPath : List BoltBucket → BucketPtr → List String
  | _, [] => []
  | bs, i :: rest =>
    match bs[i]? with
    | none => []
    | some b => b.name :: bucketPath b.buckets rest

/-- Modelled from the spec: `toggleOpenBucket(path)` is `toggleExpand(path)`:
flips the `expanded` flag of the container at the path, nothing otherwise. -/
def toggleOpenBucket (db : BoltDB) (path : List String) : BoltDB :=
  match bucketPtrFromPath db.buckets path with
  | none => db
  | some a => ⟨modifyBucket (fun b => b.setExpanded (!b.expanded)) db.buckets a⟩

/-- Modelled from the spec: `closeBucket(path)` is `collapse(path)`: clears the
`expanded` flag of the container at the path, nothing otherwise. -/
def closeBucket (db : BoltDB) (path : List String) : BoltDB :=
  match bucketPtrFromPath db.buckets path with
  | none => db
  | some a => ⟨modifyBucket (fun b => b.setExpanded false) db.buckets a⟩

end BoltDB

/-! ## The visible sequence -/

mutual
/-- Modelled from the spec: the rows of one container in `flattenVisible`: the
container itself, then, only if it is expanded, its child containers in
order (each with its own rows) and after them its pairs in order.  Each row
is the joined path, as `buildVisiblePathSlice` returns them. -/
def visibleBucket (pre : List String) : BoltBucket → List String
  | .mk name pairs buckets expanded =>
    strings.Join (pre ++ [name]) ::
      (if expanded then
        visibleBuckets (pre ++ [name]) buckets ++
          pairs.map (fun p => strings.Join (pre ++ [name] ++ [p.key]))
      else [])
/-- Rows of a list of sibling containers, in order. -/
def visibleBuckets (pre : List String) : List BoltBucket → List String
  | [] => []
  | b :: bs => visibleBucket pre b ++ visibleBuckets pre bs
end

namespace BoltDB

/-- Modelled from the spec: `buildVisiblePathSlice()` is `flattenVisible()`,
which is missing from the given sources; it returns the joined paths and
never an error. -/
def buildVisiblePathSlice (db : BoltDB) : List String × Option String :=
  (visibleBuckets [] db.buckets, none)

/-- Modelled from the spec: `getNextVisiblePath(path)` is `next(path)`: the
path right after `path` in the visible sequence, nil if `path` is the last
entry or is not found; `next(nil)` is the first visible path. -/
def getNextVisiblePath (db : BoltDB) (path : Option (List String)) :
    Option (List String) :=
  let vis := (db.buildVisiblePathSlice).1
  match path with
  | none => vis.head?.map strings.Split
  | some p =>
    match vis.indexOf? (strings.Join p) with
    | none => none
    | some i => (vis[i + 1]?).map strings.Split

/-- Modelled from the spec: `getPrevVisiblePath(path)` is `previous(path)`: the
path right before `path` in the visible sequence, nil if `path` is the first
entry or is not found; `previous(nil)` is the last visible path. -/
def getPrevVisiblePath (db : BoltDB) (path : Option (List String)) :
    Option (List String) :=
  let vis := (db.buildVisiblePathSlice).1
  match path with
  | none => vis.getLast?.map strings.Split
  | some p =>
    match vis.indexOf? (strings.Join p) with
    | none => none
    | some i => if i = 0 then none else (vis[i - 1]?).map strings.Split

end BoltDB

/-- The forest of the flatten example of the specification: `A` expanded with
containers `B` (expanded, empty) and `C` (collapsed, child `D`) and pair `x`. -/
def exampleForest : BoltDB :=
  ⟨[.mk "A" [⟨"x", "1"⟩]
      [.mk "B" [] [] true, .mk "C" [] [.mk "D" [] [] false] false] true]⟩

/-! ## Constants -/

/-- Type `BrowserMode` of the source: a bit mask held in an `int`. -/
abbrev BrowserMode := Nat

def MODE_BROWSE : BrowserMode := 16
def MODE_CHANGE : BrowserMode := 32
def MODE_CHANGE_KEY : BrowserMode := 33
def MODE_CHANGE_VAL : BrowserMode := 34
def MODE_INSERT : BrowserMode := 64
def MODE_INSERT_BUCKET : BrowserMode := 65
def MODE_INSERT_PAIR : BrowserMode := 68
def MODE_INSERT_PAIR_KEY : BrowserMode := 69
def MODE_INSERT_PAIR_VAL : BrowserMode := 70
def MODE_DELETE : BrowserMode := 256
def MODE_MOD_TO_PARENT : BrowserMode := 8

/-- Type `BoltType` of the source. -/
abbrev BoltType := Int

def TYPE_BUCKET : BoltType := 0
def TYPE_PAIR : BoltType := 1

/-- The screen indices a key handler returns.  The three constants are declared
outside the given sources; only that they are distinct is used. -/
inductive ScreenIndex where
  | BROWSER_SCREEN_INDEX
  | ABOUT_SCREEN_INDEX
  | EXIT_SCREEN_INDEX
deriving DecidableEq, Repr

open ScreenIndex

/-- The part of a `termbox.Event` the handlers read. -/
structure Event where
  Key : Nat
  Ch : Char
deriving DecidableEq, Repr

/-! Key codes of the termbox library. -/

def KeyCtrlB : Nat := 0x02
def KeyCtrlC : Nat := 0x03
def KeyCtrlF : Nat := 0x06
def KeyEnter : Nat := 0x0D
def KeyCtrlR : Nat := 0x12
def KeyEsc : Nat := 0x1B
def KeyArrowUp : Nat := 0xFFFF - 18
def KeyArrowDown : Nat := 0xFFFF - 19
def KeyArrowLeft : Nat := 0xFFFF - 20
def KeyArrowRight : Nat := 0xFFFF - 21

/-! ## The modal widgets

The two widgets belong to the termbox utility library.  Only what the
handlers read back is kept: the entered value, the done and accepted flags
and the visibility.  Titles, texts and geometry are display only. -/

/-- The state of a `termbox_util.InputModal` the handlers read back. -/
structure InputModal where
  value : String
  isDone : Bool
  isVisible : Bool
deriving DecidableEq, Repr

namespace InputModal

/-- Result of `CreateInputModal`. -/
def Create : InputModal := ⟨"", false, false⟩

/-- Method `SetValue`. -/
def SetValue (m : InputModal) (v : String) : InputModal := { m with value := v }

/-- Method `Show`. -/
def Show (m : InputModal) : InputModal := { m with isVisible := true }

/-- Method `Clear`. -/
def Clear (_m : InputModal) : InputModal := ⟨"", false, false⟩

end InputModal

/-- The state of a `termbox_util.ConfirmModal` the handlers read back. -/
structure ConfirmModal where
  isDone : Bool
  accepted : Bool
  isVisible : Bool
deriving DecidableEq, Repr

namespace ConfirmModal

/-- Result of `CreateConfirmModal`. -/
def Create : ConfirmModal := ⟨false, false, false⟩

/-- Method `Show`. -/
def Show (m : ConfirmModal) : ConfirmModal := { m with isVisible := true }

/-- Method `Clear`. -/
def Clear (_m : ConfirmModal) : ConfirmModal := ⟨false, false, false⟩

end ConfirmModal

/-! ## The store and the environment -/

/-- The mutations of the bolt file the controller invokes, with their
arguments. -/
inductive StoreCall where
  | renameBucket (path : List String) (name : String)
  | updatePairKey (path : List String) (key : String)
  | updatePairValue (path : List String) (val : String)
  | insertBucket (path : List String) (name : String)
  | insertPair (path : List String) (key : String) (val : String)
  | deleteKey (path : List String)
deriving DecidableEq, Repr

/-- Everything `screen_browser.go` consumes as a service.  `W` is the state of
the bolt file. -/
structure Env (W : Type) where
  /-- Width returned by `termbox.Size()`. -/
  width : Int
  /-- Height returned by `termbox.Size()`. -/
  height : Int
  /-- Reading of `time.Now()`, in nanoseconds. -/
  now : Int
  /-- Method `HandleKeyPress` of the input modal. -/
  inputKey : InputModal → Event → InputModal
  /-- Method `HandleKeyPress` of the confirm modal. -/
  confirmKey : ConfirmModal → Event → ConfirmModal
  /-- The store mutation functions: the returned error and the file after. -/
  exec : W → StoreCall → Option String × W
  /-- Method `refreshDatabase` of `BoltDB`: a full re-read of the file. -/
  readDatabase : W → BoltDB → BoltDB
  /-- Method `syncOpenBuckets`: the fresh forest, then the shadow forest. -/
  syncOpenBuckets : BoltDB → BoltDB → BoltDB

/-- Type `ViewPort` of the source. -/
structure ViewPort where
  bytes_per_row : Int
  number_of_rows : Int
  first_row : Int
deriving DecidableEq, Repr

/-- Type `BrowserScreen` of the source.  Three fields are added to the fields
of the Go struct: `world`, the bolt file behind the store functions; `calls`,
the log of the store mutations invoked so far; `shadowDB`, the last value of
the local `shadowDB` of `refreshDatabase`, so that in-place updates made
before a refresh stay observable. -/
structure BrowserScreen (W : Type) where
  db : BoltDB
  view_port : ViewPort
  queued_command : String
  current_path : List String
  current_type : Int
  message : String
  mode : BrowserMode
  input_modal : InputModal
  confirm_modal : ConfirmModal
  message_timeout : Int
  message_time : Int
  world : W
  calls : List StoreCall
  shadowDB : BoltDB

namespace BrowserScreen

variable {W : Type}

/-- A call of one of the store mutation functions: it is logged, the file
changes as the environment says, and its error is returned. -/
def invoke (E : Env W) (screen : BrowserScreen W) (c : StoreCall) :
    Option String × BrowserScreen W :=
  let r := E.exec screen.world c
  (r.1, { screen with world := r.2, calls := screen.calls ++ [c] })

/-- Method `setMessage`. -/
def setMessage (E : Env W) (screen : BrowserScreen W) (msg : String) : BrowserScreen W :=
  { screen with message := msg, message_time := E.now, message_timeout := 2 * 1000000000 }

/-- Method `setMessageWithTimeout`. -/
def setMessageWithTimeout (E : Env W) (screen : BrowserScreen W) (msg : String)
    (timeout : Int) : BrowserScreen W :=
  { screen with message := msg, message_time := E.now, message_timeout := timeout }

/-- Method `clearMessage`. -/
def clearMessage (screen : BrowserScreen W) : BrowserScreen W :=
  { screen with message := "", message_timeout := -1 }

/-- Method `refreshDatabase` of the screen. -/
def refreshDatabase (E : Env W) (screen : BrowserScreen W) : BrowserScreen W :=
  let shadowDB := screen.db
  let fresh := E.readDatabase screen.world screen.db
  { screen with db := E.syncOpenBuckets fresh shadowDB, shadowDB := shadowDB }

/-- Method `startDeleteItem`. -/
def startDeleteItem (_E : Env W) (screen : BrowserScreen W) : BrowserScreen W × Bool :=
  let g := screen.db.getGenericFromPath screen.current_path
  if g.e = none then
    let mod := ConfirmModal.Create
    let mod := mod.Show
    ({ screen with confirm_modal := mod, mode := MODE_DELETE }, true)
  else (screen, false)

/-- Method `startEditItem`. -/
def startEditItem (_E : Env W) (screen : BrowserScreen W) : BrowserScreen W × Bool :=
  let g := screen.db.getGenericFromPath screen.current_path
  if g.e = none then
    let mod := InputModal.Create
    let mod :=
      match g.p with
      | some p =>
        match pairAt screen.db.buckets p with
        | some q => mod.SetValue q.val
        | none => mod
      | none => mod
    let mod := mod.Show
    ({ screen with input_modal := mod, mode := MODE_CHANGE_VAL }, true)
  else (screen, false)

/-- Method `startRenameItem`. -/
def startRenameItem (_E : Env W) (screen : BrowserScreen W) : BrowserScreen W × Bool :=
  let g := screen.db.getGenericFromPath screen.current_path
  if g.e = none then
    let mod := InputModal.Create
    let mod :=
      match g.b, g.p with
      | some b, _ =>
        match bucketAt screen.db.buckets b with
        | some n => mod.SetValue n.name
        | none => mod
      | none, some p =>
        match pairAt screen.db.buckets p with
        | some q => mod.SetValue q.key
        | none => mod
      | none, none => mod
    let mod := mod.Show
    ({ screen with input_modal := mod, mode := MODE_CHANGE_KEY }, true)
  else (screen, false)

/-- The width `inp_w` of an insert modal: `w-1`, or `w/2` when `w > 80`. -/
def insertModalWidth (E : Env W) : Int :=
  if E.width > 80 then E.width.tdiv 2 else E.width - 1

/-- The title computation shared by `startInsertItem` and
`startInsertItemAtParent`: when `title_prfx + ins_path` is longer than `inp_w`
the source takes `ins_path[trunc_w+3:]`, which is out of range when
`trunc_w+3` exceeds `len(ins_path)`.  The title itself is display only. -/
def insertTitle (title_prfx ins_path : String) (inp_w : Int) : Option Unit :=
  let title_len := strLen title_prfx + strLen ins_path
  if title_len > inp_w then
    let trunc_w := title_len - inp_w
    if trunc_w + 3 ≤ strLen ins_path then some () else none
  else some ()

/-- The title text before the path, by item type. -/
def titlePrfx (tp : BoltType) : String :=
  if tp = TYPE_BUCKET then "New Bucket: "
  else if tp = TYPE_PAIR then "New Pair: "
  else ""

/-- Method `startInsertItemAtParent`. -/
def startInsertItemAtParent (E : Env W) (screen : BrowserScreen W) (tp : BoltType) :
    Option (BrowserScreen W × Bool) :=
  let inp_w := insertModalWidth E
  let mod := InputModal.Create
  let screen := { screen with input_modal := mod }
  if (screen.current_path.length : Int) ≤ 0 then
    -- in the root directory
    if tp = TYPE_BUCKET then
      some ({ screen with mode := MODE_INSERT_BUCKET ||| MODE_MOD_TO_PARENT,
                          input_modal := mod.Show }, true)
    else some (screen, false)
  else
    let len := (screen.current_path.length : Int)
    match sliceTo screen.current_path (len - 1) with
    | none => none
    | some parent =>
      let g := screen.db.getGenericFromPath parent
      let ins_path : Option String :=
        if g.e = none ∧ g.p ≠ none then
          (sliceTo screen.current_path (len - 2)).map (fun q => strings.Join q ++ "/")
        else some (strings.Join parent ++ "/")
      match ins_path with
      | none => none
      | some ins_path =>
        match insertTitle (titlePrfx tp) ins_path inp_w with
        | none => none
        | some _ =>
          if tp = TYPE_BUCKET then
            some ({ screen with mode := MODE_INSERT_BUCKET ||| MODE_MOD_TO_PARENT,
                                input_modal := mod.Show }, true)
          else if tp = TYPE_PAIR then
            some ({ screen with input_modal := mod.Show,
                                mode := MODE_INSERT_PAIR ||| MODE_MOD_TO_PARENT }, true)
          else some (screen, false)

/-- Method `startInsertItem`. -/
def startInsertItem (E : Env W) (screen : BrowserScreen W) (tp : BoltType) :
    Option (BrowserScreen W × Bool) :=
  let inp_w := insertModalWidth E
  let mod := InputModal.Create
  let screen := { screen with input_modal := mod }
  let g := screen.db.getGenericFromPath screen.current_path
  let ins_path : Option String :=
    if g.e = none ∧ g.p ≠ none then
      (sliceTo screen.current_path ((screen.current_path.length : Int) - 1)).map
        (fun q => strings.Join q ++ "/")
    else some (strings.Join screen.current_path ++ "/")
  match ins_path with
  | none => none
  | some ins_path =>
    match insertTitle (titlePrfx tp) ins_path inp_w with
    | none => none
    | some _ =>
      if tp = TYPE_BUCKET then
        some ({ screen with mode := MODE_INSERT_BUCKET, input_modal := mod.Show }, true)
      else if tp = TYPE_PAIR then
        some ({ screen with input_modal := mod.Show, mode := MODE_INSERT_PAIR }, true)
      else some (screen, false)

/-! ### Rename and edit -/

/-- Method `handleInputKeyEvent`. -/
def handleInputKeyEvent (E : Env W) (screen : BrowserScreen W) (event : Event) :
    Option (BrowserScreen W × ScreenIndex) :=
  if event.Key = KeyEsc then
    some ({ screen with mode := MODE_BROWSE, input_modal := screen.input_modal.Clear },
      BROWSER_SCREEN_INDEX)
  else
    let screen := { screen with input_modal := E.inputKey screen.input_modal event }
    if screen.input_modal.isDone then
      let g := screen.db.getGenericFromPath screen.current_path
      let body : Option (BrowserScreen W) :=
        match g.b, g.p with
        | some b, _ =>
          if screen.mode = MODE_CHANGE_KEY then
            let new_name := screen.input_modal.value
            let r := screen.invoke E (.renameBucket screen.current_path new_name)
            let screen := r.2
            if r.1 ≠ none then some (screen.setMessage E "Error renaming bucket.")
            else
              -- b.name = new_name
              let screen :=
                { screen with db := ⟨modifyBucket (fun n => n.setName new_name) screen.db.buckets b⟩ }
              -- current_path[len(current_path)-1] = b.name
              match setLast screen.current_path new_name with
              | none => none
              | some cp =>
                let screen := { screen with current_path := cp }
                let screen := screen.setMessage E "Bucket Renamed!"
                some (screen.refreshDatabase E)
          else some screen
        | none, some p =>
          if screen.mode = MODE_CHANGE_KEY then
            let new_key := screen.input_modal.value
            let r := screen.invoke E (.updatePairKey screen.current_path new_key)
            let screen := r.2
            if r.1 ≠ none then some (screen.setMessage E "Error occurred updating Pair.")
            else
              -- p.key = new_key
              let screen :=
                { screen with
                  db := ⟨modifyPair (fun q => { q with key := new_key }) screen.db.buckets p⟩ }
              -- current_path[len(current_path)-1] = p.key
              match setLast screen.current_path new_key with
              | none => none
              | some cp =>
                let screen := { screen with current_path := cp }
                let screen := screen.setMessage E "Pair updated!"
                some (screen.refreshDatabase E)
          else if screen.mode = MODE_CHANGE_VAL then
            let new_val := screen.input_modal.value
            let r := screen.invoke E (.updatePairValue screen.current_path new_val)
            let screen := r.2
            if r.1 ≠ none then some (screen.setMessage E "Error occurred updating Pair.")
            else
              -- p.val = new_val
              let screen :=
                { screen with
                  db := ⟨modifyPair (fun q => { q with val := new_val }) screen.db.buckets p⟩ }
              let screen := screen.setMessage E "Pair updated!"
              some (screen.refreshDatabase E)
          else some screen
        | none, none => some screen
      match body with
      | none => none
      | some screen =>
        some ({ screen with mode := MODE_BROWSE, input_modal := screen.input_modal.Clear },
          BROWSER_SCREEN_INDEX)
    else some (screen, BROWSER_SCREEN_INDEX)

/-! ### Delete -/

/-- The cursor move of `handleDeleteKeyEvent` after a successful delete
(the nested conditional under the comment about the path endpoint), as a
function of the cursor path and the two captured paths. -/
def deleteReposition (current_path : List String)
    (hold_next_path hold_prev_path : Option (List String)) : Option (List String) :=
  match hold_next_path with
  | some n =>
    if (n.length : Int) > 2 then
      match indexAt n ((n.length : Int) - 2),
            indexAt current_path ((current_path.length : Int) - 2) with
      | some a, some b =>
        if a = b then some n
        else
          match hold_prev_path with
          | some p => some p
          | none =>
            -- Otherwise, go to the parent
            sliceTo current_path ((n.length : Int) - 2)
      | _, _ => none
    else
      -- Root bucket deleted, set to next
      some n
  | none =>
    match hold_prev_path with
    | some p => some p
    | none => sliceTo current_path 0

/-- Method `handleDeleteKeyEvent`. -/
def handleDeleteKeyEvent (E : Env W) (screen : BrowserScreen W) (event : Event) :
    Option (BrowserScreen W × ScreenIndex) :=
  let screen := { screen with confirm_modal := E.confirmKey screen.confirm_modal event }
  if screen.confirm_modal.isDone then
    let body : Option (BrowserScreen W) :=
      if screen.confirm_modal.accepted then
        let hold_next_path := screen.db.getNextVisiblePath (some screen.current_path)
        let hold_prev_path := screen.db.getPrevVisiblePath (some screen.current_path)
        let r := screen.invoke E (.deleteKey screen.current_path)
        let screen := r.2
        if r.1 = none then
          let screen := screen.refreshDatabase E
          match deleteReposition screen.current_path hold_next_path hold_prev_path with
          | none => none
          | some cp => some { screen with current_path := cp }
        else some screen
      else some screen
    match body with
    | none => none
    | some screen =>
      some ({ screen with mode := MODE_BROWSE, confirm_modal := screen.confirm_modal.Clear },
        BROWSER_SCREEN_INDEX)
  else some (screen, BROWSER_SCREEN_INDEX)

/-! ### Insert -/

/-- The computation of `insert_path` in `handleInsertKeyEvent` (from the
declaration of `insert_path` to the lookup of `parent_b`): the screen, whose
mode and message it may change, and the anchor. -/
def insertPath (E : Env W) (screen : BrowserScreen W) : BrowserScreen W × List String :=
  if screen.current_path.length > 0 then
    let g := screen.db.getGenericFromPath screen.current_path
    let screen :=
      if g.e ≠ none then screen.setMessage E "Error Inserting new item. Invalid Path."
      else screen
    let insert_path := screen.current_path
    -- where are we inserting?
    let screen :=
      if g.p ≠ none then { screen with mode := screen.mode ||| MODE_MOD_TO_PARENT }
      else screen
    if screen.mode &&& MODE_MOD_TO_PARENT = MODE_MOD_TO_PARENT then
      if screen.current_path.length > 1 then
        (screen, screen.current_path.take (screen.current_path.length - 1))
      else (screen, [])
    else (screen, insert_path)
  else (screen, [])

/-- Assignment `parent_b.expanded = true` under `if parent_b != nil`. -/
def expandParent (screen : BrowserScreen W) (parent_b : Option BucketPtr) : BrowserScreen W :=
  match parent_b with
  | some a => { screen with db := ⟨modifyBucket (fun n => n.setExpanded true) screen.db.buckets a⟩ }
  | none => screen

/-- Method `handleInsertKeyEvent`. -/
def handleInsertKeyEvent (E : Env W) (screen : BrowserScreen W) (event : Event) :
    Option (BrowserScreen W × ScreenIndex) :=
  if event.Key = KeyEsc then
    if screen.db.buckets.length = 0 then some (screen, EXIT_SCREEN_INDEX)
    else
      some ({ screen with mode := MODE_BROWSE, input_modal := screen.input_modal.Clear },
        BROWSER_SCREEN_INDEX)
  else
    let screen := { screen with input_modal := E.inputKey screen.input_modal event }
    if screen.input_modal.isDone then
      let new_val := screen.input_modal.value
      let screen := { screen with input_modal := screen.input_modal.Clear }
      let r := screen.insertPath E
      let screen := r.1
      let insert_path := r.2
      let parent_b := (screen.db.getGenericFromPath insert_path).b
      if screen.mode &&& MODE_INSERT_BUCKET = MODE_INSERT_BUCKET then
        let r := screen.invoke E (.insertBucket insert_path new_val)
        let screen := r.2
        let screen :=
          match r.1 with
          | some err => screen.setMessage E (err ++ " => " ++ fmtPath insert_path)
          | none => screen.expandParent parent_b
        let screen := { screen with current_path := insert_path ++ [new_val] }
        let screen := screen.refreshDatabase E
        some ({ screen with mode := MODE_BROWSE, input_modal := screen.input_modal.Clear },
          BROWSER_SCREEN_INDEX)
      else if screen.mode &&& MODE_INSERT_PAIR = MODE_INSERT_PAIR then
        let r := screen.invoke E (.insertPair insert_path new_val "")
        let screen := r.2
        match r.1 with
        | some err =>
          let screen := screen.setMessage E (err ++ " => " ++ fmtPath insert_path)
          let screen := screen.refreshDatabase E
          some ({ screen with mode := MODE_BROWSE, input_modal := screen.input_modal.Clear },
            BROWSER_SCREEN_INDEX)
        | none =>
          let screen := screen.expandParent parent_b
          let screen := { screen with current_path := insert_path ++ [new_val] }
          let screen := screen.refreshDatabase E
          some ((screen.startEditItem E).1, BROWSER_SCREEN_INDEX)
      else some (screen, BROWSER_SCREEN_INDEX)
    else some (screen, BROWSER_SCREEN_INDEX)

/-! ### Cursor movement -/

/-- The loop of `jumpCursorDown` and `jumpCursorUp` over the rows still to
visit: `start_jump`, the remaining `distance` and the cursor path are the
loop variables; reaching distance zero sets the cursor and breaks. -/
def jumpLoop (find_path : String) :
    List String → Bool → Int → List String → List String
  | [], _, _, current_path => current_path
  | v :: rest, start_jump, distance, current_path =>
    let start_jump := if v = find_path then true else start_jump
    if start_jump then
      let distance := distance - 1
      if distance = 0 then strings.Split v
      else jumpLoop find_path rest start_jump distance current_path
    else jumpLoop find_path rest start_jump distance current_path

/-- Method `jumpCursorUp`. -/
def jumpCursorUp (screen : BrowserScreen W) (distance : Int) : BrowserScreen W × Bool :=
  -- Jump up `distance` lines
  let r := screen.db.buildVisiblePathSlice
  if r.2 = none then
    let vis_paths := r.1
    let find_path := strings.Join screen.current_path
    let screen :=
      { screen with
        current_path := jumpLoop find_path vis_paths.reverse false distance screen.current_path }
    if strings.Join screen.current_path = find_path then
      ({ screen with current_path := (screen.db.getNextVisiblePath none).getD [] }, true)
    else (screen, true)
  else (screen, true)

/-- Method `jumpCursorDown`. -/
def jumpCursorDown (screen : BrowserScreen W) (distance : Int) : BrowserScreen W × Bool :=
  let r := screen.db.buildVisiblePathSlice
  if r.2 = none then
    let vis_paths := r.1
    let find_path := strings.Join screen.current_path
    let screen :=
      { screen with
        current_path := jumpLoop find_path vis_paths false distance screen.current_path }
    if strings.Join screen.current_path = find_path then
      ({ screen with current_path := (screen.db.getPrevVisiblePath none).getD [] }, true)
    else (screen, true)
  else (screen, true)

/-- Method `moveCursorUp`. -/
def moveCursorUp (screen : BrowserScreen W) : BrowserScreen W × Bool :=
  match screen.db.getPrevVisiblePath (some screen.current_path) with
  | some new_path => ({ screen with current_path := new_path }, true)
  | none => (screen, false)

/-- Method `moveCursorDown`. -/
def moveCursorDown (screen : BrowserScreen W) : BrowserScreen W × Bool :=
  match screen.db.getNextVisiblePath (some screen.current_path) with
  | some new_path => ({ screen with current_path := new_path }, true)
  | none => (screen, false)

/-! ### Browse mode and the dispatch -/

/-- Method `handleBrowseKeyEvent`. -/
def handleBrowseKeyEvent (E : Env W) (screen : BrowserScreen W) (event : Event) :
    Option (BrowserScreen W × ScreenIndex) :=
  if event.Ch = '?' then
    -- About
    some (screen, ABOUT_SCREEN_INDEX)
  else if event.Ch = 'q' ∨ event.Key = KeyEsc ∨ event.Key = KeyCtrlC then
    -- Quit
    some (screen, EXIT_SCREEN_INDEX)
  else if event.Ch = 'g' then
    -- Jump to Beginning
    some ({ screen with current_path := (screen.db.getNextVisiblePath none).getD [] },
      BROWSER_SCREEN_INDEX)
  else if event.Ch = 'G' then
    -- Jump to End
    some ({ screen with current_path := (screen.db.getPrevVisiblePath none).getD [] },
      BROWSER_SCREEN_INDEX)
  else if event.Key = KeyCtrlR then
    some (screen.refreshDatabase E, BROWSER_SCREEN_INDEX)
  else if event.Key = KeyCtrlF then
    -- Jump forward half a screen
    let half := E.height.tdiv 2
    some ((screen.jumpCursorDown half).1, BROWSER_SCREEN_INDEX)
  else if event.Key = KeyCtrlB then
    let half := E.height.tdiv 2
    some ((screen.jumpCursorUp half).1, BROWSER_SCREEN_INDEX)
  else if event.Ch = 'j' ∨ event.Key = KeyArrowDown then
    some ((screen.moveCursorDown).1, BROWSER_SCREEN_INDEX)
  else if event.Ch = 'k' ∨ event.Key = KeyArrowUp then
    some ((screen.moveCursorUp).1, BROWSER_SCREEN_INDEX)
  else if event.Ch = 'p' then
    -- p creates a new pair at the current level
    (screen.startInsertItem E TYPE_PAIR).map (fun r => (r.1, BROWSER_SCREEN_INDEX))
  else if event.Ch = 'P' then
    -- P creates a new pair at the parent level
    (screen.startInsertItemAtParent E TYPE_PAIR).map (fun r => (r.1, BROWSER_SCREEN_INDEX))
  else if event.Ch = 'b' then
    -- b creates a new bucket at the current level
    (screen.startInsertItem E TYPE_BUCKET).map (fun r => (r.1, BROWSER_SCREEN_INDEX))
  else if event.Ch = 'B' then
    -- B creates a new bucket at the parent level
    (screen.startInsertItemAtParent E TYPE_BUCKET).map (fun r => (r.1, BROWSER_SCREEN_INDEX))
  else if event.Ch = 'e' then
    let g := screen.db.getGenericFromPath screen.current_path
    if g.b ≠ none then
      some (screen.setMessage E "Cannot edit a bucket, did you mean to (r)ename?",
        BROWSER_SCREEN_INDEX)
    else if g.p ≠ none then some ((screen.startEditItem E).1, BROWSER_SCREEN_INDEX)
    else some (screen, BROWSER_SCREEN_INDEX)
  else if event.Ch = 'r' then
    some ((screen.startRenameItem E).1, BROWSER_SCREEN_INDEX)
  else if event.Key = KeyEnter then
    let g := screen.db.getGenericFromPath screen.current_path
    if g.b ≠ none then
      some ({ screen with db := screen.db.toggleOpenBucket screen.current_path },
        BROWSER_SCREEN_INDEX)
    else if g.p ≠ none then some ((screen.startEditItem E).1, BROWSER_SCREEN_INDEX)
    else some (screen, BROWSER_SCREEN_INDEX)
  else if event.Ch = 'l' ∨ event.Key = KeyArrowRight then
    let g := screen.db.getGenericFromPath screen.current_path
    -- Select the current item
    if g.b ≠ none then
      some ({ screen with db := screen.db.toggleOpenBucket screen.current_path },
        BROWSER_SCREEN_INDEX)
    else if g.p ≠ none then some ((screen.startEditItem E).1, BROWSER_SCREEN_INDEX)
    else some (screen.setMessage E "Not sure what to do here...", BROWSER_SCREEN_INDEX)
  else if event.Ch = 'h' ∨ event.Key = KeyArrowLeft then
    -- If we are _on_ a bucket that is open, close it
    let g := screen.db.getGenericFromPath screen.current_path
    let b_expanded : Bool :=
      match g.b with
      | some b =>
        match bucketAt screen.db.buckets b with
        | some n => n.expanded
        | none => false
      | none => false
    if g.e = none ∧ g.b ≠ none ∧ b_expanded = true then
      some ({ screen with db := screen.db.closeBucket screen.current_path },
        BROWSER_SCREEN_INDEX)
    else if screen.current_path.length > 1 then
      let r := screen.db.getBucketFromPath
        (screen.current_path.take (screen.current_path.length - 1))
      match r.1, r.2 with
      | some parent_bucket, none =>
        let parent_path := BoltDB.bucketPath screen.db.buckets parent_bucket
        -- Figure out how far up we need to move the cursor
        some ({ screen with db := screen.db.closeBucket parent_path,
                            current_path := parent_path }, BROWSER_SCREEN_INDEX)
      | _, _ => some (screen, BROWSER_SCREEN_INDEX)
    else
      some ({ screen with db := screen.db.closeBucket screen.current_path },
        BROWSER_SCREEN_INDEX)
  else if event.Ch = 'D' then
    some ((screen.startDeleteItem E).1, BROWSER_SCREEN_INDEX)
  else some (screen, BROWSER_SCREEN_INDEX)

/-- Method `handleKeyEvent`. -/
def handleKeyEvent (E : Env W) (screen : BrowserScreen W) (event : Event) :
    Option (BrowserScreen W × ScreenIndex) :=
  let screen := if screen.mode = 0 then { screen with mode := MODE_BROWSE } else screen
  if screen.mode = MODE_BROWSE then screen.handleBrowseKeyEvent E event
  else if screen.mode &&& MODE_CHANGE = MODE_CHANGE then screen.handleInputKeyEvent E event
  else if screen.mode &&& MODE_INSERT = MODE_INSERT then screen.handleInsertKeyEvent E event
  else if screen.mode = MODE_DELETE then screen.handleDeleteKeyEvent E event
  else some (screen, BROWSER_SCREEN_INDEX)

end BrowserScreen

/-! ## Drawing -/

/-- Type `Style` of the source: six termbox attributes. -/
structure Style where
  default_bg : Nat
  default_fg : Nat
  title_fg : Nat
  title_bg : Nat
  cursor_fg : Nat
  cursor_bg : Nat
deriving DecidableEq, Repr

/-- Function `defaultStyle` of the source, with the termbox colour codes
(`ColorDefault` 0, `ColorBlack` 1, `ColorWhite` 8). -/
def defaultStyle : Style where
  default_bg := 0
  default_fg := 0
  title_fg := 8
  title_bg := 1
  cursor_fg := 8
  cursor_bg := 1

/-- A call `termbox_util.DrawStringAtPoint(text, x, y, fg, bg)`. -/
structure DrawCall where
  text : String
  x : Int
  y : Int
  fg : Nat
  bg : Nat
deriving DecidableEq, Repr

/-- Go `strings.Repeat(s, count)`, which panics on a negative count. -/
def strings.Repeat (s : String) (count : Int) : Option String :=
  if count < 0 then none else some ⟨(List.replicate count.toNat s.data).flatten⟩

/-- The pane width the row drawing uses: the terminal width, halved when it
exceeds 80. -/
def paneWidth {W : Type} (E : Env W) : Int :=
  if E.width > 80 then E.width.tdiv 2 else E.width

namespace BrowserScreen

variable {W : Type}

/-- Method `drawPair`; `pre` is the path of the owning container, so that
`pre ++ [key]` is `bp.GetPath()`.  The result is the row drawn and the
returned line count. -/
def drawPair (E : Env W) (screen : BrowserScreen W) (pre : List String) (bp : BoltPair)
    (style : Style) (y : Int) : Option (List DrawCall × Int) :=
  let w := paneWidth E
  let path := pre ++ [bp.key]
  let cursor := comparePaths screen.current_path path
  let bucket_fg := if cursor then style.cursor_fg else style.default_fg
  let bucket_bg := if cursor then style.cursor_bg else style.default_bg
  match strings.Repeat " " ((path.length : Int) * 2) with
  | none => none
  | some indent =>
    let pair_string := indent ++ bp.key ++ ": " ++ bp.val
    if w - strLen pair_string > 0 then
      match strings.Repeat " " (w - strLen pair_string) with
      | none => none
      | some pad => some ([⟨pair_string ++ pad, 0, y, bucket_fg, bucket_bg⟩], 1)
    else some ([⟨pair_string, 0, y, bucket_fg, bucket_bg⟩], 1)

/-- The loop `for i := range bkt.pairs` of `drawBucket`: the rows drawn and
the value of `used_lines` after it. -/
def drawPairs (E : Env W) (screen : BrowserScreen W) (pre : List String) (style : Style)
    (y : Int) : List BoltPair → Int → Option (List DrawCall × Int)
  | [], used_lines => some ([], used_lines)
  | bp :: rest, used_lines =>
    match drawPair E screen pre bp style (y + used_lines) with
    | none => none
    | some r =>
      match drawPairs E screen pre style y rest (used_lines + r.2) with
      | none => none
      | some r2 => some (r.1 ++ r2.1, r2.2)

mutual
/-- Method `drawBucket`; `pre` is the path of the parent, so that
`pre ++ [name]` is `bkt.GetPath()`.  The result is the rows drawn, in the
order of the calls, and the returned line count. -/
def drawBucket (E : Env W) (screen : BrowserScreen W) (pre : List String) (style : Style) :
    BoltBucket → Int → Option (List DrawCall × Int)
  | .mk name pairs buckets expanded, y =>
    let w := paneWidth E
    let path := pre ++ [name]
    let cursor := comparePaths screen.current_path path
    let bucket_fg := if cursor then style.cursor_fg else style.default_fg
    let bucket_bg := if cursor then style.cursor_bg else style.default_bg
    match strings.Repeat " " ((path.length : Int) * 2) with
    | none => none
    | some indent =>
      if expanded then
        let bkt_string := indent ++ "- " ++ name ++ " "
        match strings.Repeat " " (w - strLen bkt_string) with
        | none => none
        | some pad =>
          let row : DrawCall := ⟨bkt_string ++ pad, 0, y + 0, bucket_fg, bucket_bg⟩
          match drawBucketLoop E screen path style y buckets 1 with
          | none => none
          | some r =>
            match drawPairs E screen path style y pairs r.2 with
            | none => none
            | some r2 => some (row :: (r.1 ++ r2.1), r2.2)
      else
        let bkt_string := indent ++ "+ " ++ name
        match strings.Repeat " " (w - strLen bkt_string) with
        | none => none
        | some pad => some ([⟨bkt_string ++ pad, 0, y + 0, bucket_fg, bucket_bg⟩], 1)
/-- The loop `for i := range bkt.buckets` of `drawBucket`: the rows drawn and
the value of `used_lines` after it. -/
def drawBucketLoop (E : Env W) (screen : BrowserScreen W) (pre : List String)
    (style : Style) (y : Int) : List BoltBucket → Int → Option (List DrawCall × Int)
  | [], used_lines => some ([], used_lines)
  | b :: rest, used_lines =>
    match drawBucket E screen pre style b (y + used_lines) with
    | none => none
    | some r =>
      match drawBucketLoop E screen pre style y rest (used_lines + r.2) with
      | none => none
      | some r2 => some (r.1 ++ r2.1, r2.2)
end

/-- The loop over the root containers in `drawLeftPane`: the rows drawn and
the value of `y` after it. -/
def drawRoots (E : Env W) (screen : BrowserScreen W) (style : Style) (tree_offset : Int) :
    List BoltBucket → Int → Option (List DrawCall × Int)
  | [], y => some ([], y)
  | b :: rest, y =>
    match drawBucket E screen [] style b (y - tree_offset) with
    | none => none
    | some r =>
      match drawRoots E screen style tree_offset rest (y + r.2) with
      | none => none
      | some r2 => some (r.1 ++ r2.1, r2.2)

/-- The loop of `drawLeftPane` that looks for the cursor row: the last index
whose row is the joined cursor path, else the start value. -/
def curPathSpot (find_path : String) : List String → Nat → Int → Int
  | [], _, spot => spot
  | v :: rest, i, spot =>
    curPathSpot find_path rest (i + 1) (if find_path = v then (i : Int) else spot)

/-- Method `drawLeftPane`: the screen after it and the rows it draws. -/
def drawLeftPane (E : Env W) (screen : BrowserScreen W) (style : Style) :
    Option (BrowserScreen W × List DrawCall) :=
  let h := E.height
  let screen := { screen with view_port := { screen.view_port with number_of_rows := h - 2 } }
  let y : Int := 2
  let screen := { screen with view_port := { screen.view_port with first_row := y } }
  let screen :=
    if screen.current_path.length = 0 then
      { screen with current_path := (screen.db.getNextVisiblePath none).getD [] }
    else screen
  -- So we know how much of the tree _wants_ to be visible
  let r := screen.db.buildVisiblePathSlice
  let cur_path_spot : Int :=
    if r.2 = none then curPathSpot (strings.Join screen.current_path) r.1 0 0 else 0
  let max_cursor := (screen.view_port.number_of_rows * 2).tdiv 3
  let tree_offset : Int := if cur_path_spot > max_cursor then cur_path_spot - max_cursor else 0
  match drawRoots E screen style tree_offset screen.db.buckets y with
  | none => none
  | some d => some (screen, d.1)

/-- Method `drawHeader`: only the padding computation can fail. -/
def drawHeader (E : Env W) (_screen : BrowserScreen W) (_style : Style) : Option Unit :=
  (strings.Repeat " " (E.width.tdiv 2)).map (fun _ => ())

/-- Method `drawFooter`: the message is cleared once its timeout has passed. -/
def drawFooter (E : Env W) (screen : BrowserScreen W) (_style : Style) : BrowserScreen W :=
  if screen.message_timeout > 0 ∧ E.now - screen.message_time > screen.message_timeout then
    screen.clearMessage
  else screen

/-- Method `drawScreen`: the screen after it.  The right pane and the modal
drawing only read the screen. -/
def drawScreen (E : Env W) (screen : BrowserScreen W) (style : Style) :
    Option (BrowserScreen W) :=
  let forced : Option (BrowserScreen W) :=
    if screen.db.buckets.length = 0 ∧
        screen.mode &&& MODE_INSERT_BUCKET ≠ MODE_INSERT_BUCKET then
      -- Force a bucket insert
      (screen.startInsertItemAtParent E TYPE_BUCKET).map (fun r => r.1)
    else some screen
  match forced with
  | none => none
  | some screen =>
    let screen :=
      if screen.message = "" then screen.setMessageWithTimeout E "Press '?' for help" (-1)
      else screen
    match screen.drawLeftPane E style with
    | none => none
    | some r =>
      let screen := r.1
      match screen.drawHeader E style with
      | none => none
      | some _ => some (screen.drawFooter E style)

end BrowserScreen

/-! ## Example environments and screens -/

/-- An environment for the examples: a wide terminal, widgets that complete on
any key with the given value and an accepted confirmation, and a store whose
every mutation returns `result` and leaves the file holding `after`. -/
def exampleEnv (result : Option String) (after : BoltDB) (value : String) : Env BoltDB where
  width := 100
  height := 40
  now := 0
  inputKey := fun m _ => { m with value := value, isDone := true }
  confirmKey := fun m _ => { m with isDone := true, accepted := true }
  exec := fun _ _ => (result, after)
  readDatabase := fun w _ => w
  syncOpenBuckets := fun fresh _ => fresh

/-- A screen over a forest with a cursor path and a mode, nothing else set. -/
def exampleScreen (db : BoltDB) (path : List String) (mode : BrowserMode) :
    BrowserScreen BoltDB where
  db := db
  view_port := ⟨0, 0, 0⟩
  queued_command := ""
  current_path := path
  current_type := 0
  message := ""
  mode := mode
  input_modal := InputModal.Create
  confirm_modal := ConfirmModal.Create
  message_timeout := 0
  message_time := 0
  world := db
  calls := []
  shadowDB := db

/-- Two root containers: `A`, expanded, holding the single pair `x`, and `B`. -/
def twoRoots : BoltDB :=
  ⟨[.mk "A" [⟨"x", "1"⟩] [] true, .mk "B" [] [] false]⟩

/-- The forest `twoRoots` after the pair `A/x` is deleted. -/
def twoRootsAfter : BoltDB :=
  ⟨[.mk "A" [] [] true, .mk "B" [] [] false]⟩

/-- A key event carrying a character. -/
def chEvent (c : Char) : Event := ⟨0, c⟩

/-- The Esc key event. -/
def escEvent : Event := ⟨KeyEsc, ' '⟩

/-- A root container `R` holding the container `A`, both expanded; `A` holds
the pairs `x` and `y`. -/
def deepForest : BoltDB :=
  ⟨[.mk "R" [] [.mk "A" [⟨"x", "1"⟩, ⟨"y", "2"⟩] [] true] true]⟩

/-- The forest `deepForest` after the pair `R/A/x` is deleted. -/
def deepForestAfter : BoltDB :=
  ⟨[.mk "R" [] [.mk "A" [⟨"y", "2"⟩] [] true] true]⟩

/-- One collapsed root container `A`, empty. -/
def oneRoot : BoltDB := ⟨[.mk "A" [] [] false]⟩

/-- The forest `oneRoot` after the pair `z` with the empty value is inserted
into `A`. -/
def oneRootWithZ : BoltDB := ⟨[.mk "A" [⟨"z", ""⟩] [] false]⟩

/-- The forest `oneRoot` after `A` is renamed to `N`. -/
def oneRootRenamed : BoltDB := ⟨[.mk "N" [] [] false]⟩

/-- The forest without root containers. -/
def emptyForest : BoltDB := ⟨[]⟩

/-- The example environment on a terminal one row high. -/
def oneRowEnv : Env BoltDB :=
  { exampleEnv none exampleForest "" with height := 1 }

/-- The example environment on a terminal eighty columns wide. -/
def env80 : Env BoltDB :=
  { exampleEnv none emptyForest "" with width := 80 }

/-- A name of eighty bytes. -/
def longName : String := ⟨List.replicate 80 'a'⟩

/-- A collapsed root container whose name has eighty bytes. -/
def longNameBucket : BoltBucket := .mk longName [] [] false

/-- The root container of the example forest. -/
def exampleBucket : BoltBucket :=
  .mk "A" [⟨"x", "1"⟩] [.mk "B" [] [] true, .mk "C" [] [.mk "D" [] [] false] false] true

/-! ## The rows of the left pane, row by row of the visible sequence

The definitions of this section do not come from `drawBucket`: they list, for
the visible sequence of the specification, what each of its rows shows, so
that the rows `drawBucket` draws can be compared with them. -/

/-- A run of `k` blanks, the value of `strings.Repeat(" ", k)`. -/
def blanks (k : Nat) : String := ⟨(List.replicate k " ".data).flatten⟩

/-- A row of the visible sequence: its path, the label shown for it before
padding, and whether it is the row of a container. -/
structure VisibleRow where
  path : List String
  label : String
  isBucket : Bool
deriving DecidableEq, Repr

/-- The label of a container row: two blanks per path segment, then `- ` and
the name and a blank when expanded, `+ ` and the name when collapsed. -/
def bucketLabel (path : List String) (name : String) (expanded : Bool) : String :=
  if expanded then blanks (path.length * 2) ++ "- " ++ name ++ " "
  else blanks (path.length * 2) ++ "+ " ++ name

/-- The label of a pair row: two blanks per path segment, then the key, a
colon and a blank, and the value. -/
def pairLabel (path : List String) (bp : BoltPair) : String :=
  blanks (path.length * 2) ++ bp.key ++ ": " ++ bp.val

/-- The row of a pair of the container with path `pre`. -/
def pairRow (pre : List String) (bp : BoltPair) : VisibleRow :=
  ⟨pre ++ [bp.key], pairLabel (pre ++ [bp.key]) bp, false⟩

mutual
/-- The rows of the visible sequence of one container, in its order: the
container itself, then, only if it is expanded, the rows of each child
container in order and after them one row per pair in order. -/
def visibleRows (pre : List String) : BoltBucket → List VisibleRow
  | .mk name pairs buckets expanded =>
    ⟨pre ++ [name], bucketLabel (pre ++ [name]) name expanded, true⟩ ::
      (if expanded then
        visibleRowsList (pre ++ [name]) buckets ++ pairs.map (pairRow (pre ++ [name]))
      else [])
/-- The rows of the visible sequence of a list of sibling containers. -/
def visibleRowsList (pre : List String) : List BoltBucket → List VisibleRow
  | [] => []
  | b :: bs => visibleRows pre b ++ visibleRowsList pre bs
end

/-- A container row fits a pane when its label is not longer than the pane;
a pair row always does. -/
def rowFits (w : Int) (r : VisibleRow) : Bool :=
  !r.isBucket || decide (strLen r.label ≤ w)

/-- The draw call expected for a row at the screen row `y`: the label padded
with blanks to the pane width, at column 0, in the cursor colours when the
row is the cursor row. -/
def expectedCall (w : Int) (cur : List String) (style : Style) (y : Int) (r : VisibleRow) :
    DrawCall :=
  ⟨r.label ++ blanks (w - strLen r.label).toNat, 0, y,
    if comparePaths cur r.path then style.cursor_fg else style.default_fg,
    if comparePaths cur r.path then style.cursor_bg else style.default_bg⟩

/-- The draw calls expected for a list of rows at the consecutive screen rows
`y`, `y+1`, and so on. -/
def expectedCalls (w : Int) (cur : List String) (style : Style) :
    Int → List VisibleRow → List DrawCall
  | _, [] => []
  | y, r :: rs => expectedCall w cur style y r :: expectedCalls w cur style (y + 1) rs

/-- Two root containers: `Z`, collapsed, and after it `A`, expanded, holding
the single pair `x`. -/
def rootsZA : BoltDB :=
  ⟨[.mk "Z" [] [] false, .mk "A" [⟨"x", "1"⟩] [] true]⟩

/-- The forest `rootsZA` after the root container `A` is deleted. -/
def rootsZAAfter : BoltDB := ⟨[.mk "Z" [] [] false]⟩

/-- A root container `A`, expanded, whose one child container has the name
`x/y`, with a slash in it. -/
def slashForest : BoltDB :=
  ⟨[.mk "A" [] [.mk "x/y" [] [] false] true]⟩

/-- The example environment with a confirmation widget that completes on `y`
(accepted) and on `n` (declined) and ignores every other key. -/
def ynEnv : Env BoltDB :=
  { exampleEnv none oneRoot "" with
    confirmKey := fun m ev =>
      if ev.Ch = 'y' then { m with isDone := true, accepted := true }
      else if ev.Ch = 'n' then { m with isDone := true, accepted := false }
      else m }

/-- The example environment on a terminal thirteen columns wide, with a store
that rejects every mutation and an input widget that completes with `N`. -/
def failingEnv13 : Env BoltDB :=
  { exampleEnv (some "read-only") emptyForest "N" with width := 13 }

/-- The environment `failingEnv13` on a terminal fourteen columns wide. -/
def failingEnv14 : Env BoltDB :=
  { exampleEnv (some "read-only") emptyForest "N" with width := 14 }

/-! ## Theorems -/

/-! ### Checks of the modelled forest operations on the example forests -/

example : exampleForest.buildVisiblePathSlice.1 = ["A", "A/B", "A/C", "A/x"] := by decide
example : exampleForest.getNextVisiblePath (some ["A", "C"]) = some ["A", "x"] := by decide
example : exampleForest.getPrevVisiblePath none = some ["A", "x"] := by decide
example : exampleForest.getGenericFromPath ["A", "x"] = ⟨none, some ⟨[0], 0⟩, none⟩ := by decide
example : exampleForest.getGenericFromPath ["A", "C", "D"] = ⟨some [0, 1, 0], none, none⟩ := by decide
example : exampleForest.getGenericFromPath ["A", "Z"] = ⟨none, none, some "Invalid Path"⟩ := by decide
example : fmtPath ["a", "b"] = "[a b]" := by decide
example : twoRoots.getNextVisiblePath (some ["A", "x"]) = some ["B"] := by decide
example :
    ((exampleScreen twoRoots ["A", "x"] MODE_DELETE).handleDeleteKeyEvent
      (exampleEnv none twoRootsAfter "") (chEvent 'y')).map
        (fun r => (r.1.current_path, r.1.mode, r.2)) =
      some (["B"], 16, BROWSER_SCREEN_INDEX) := by decide

open BrowserScreen

section Delete

variable {W : Type}

/-- An accepted confirmation whose delete succeeds: the handler logs the delete,
refreshes, moves the cursor as `deleteReposition` says and returns to browse
mode; it fails exactly when `deleteReposition` does. -/
theorem handleDeleteKeyEvent_accepted (E : Env W) (s : BrowserScreen W) (ev : Event)
    (hdone : (E.confirmKey s.confirm_modal ev).isDone = true)
    (hacc : (E.confirmKey s.confirm_modal ev).accepted = true)
    (hok : (E.exec s.world (.deleteKey s.current_path)).1 = none)
    (cp : List String)
    (hcp : deleteReposition s.current_path
      (s.db.getNextVisiblePath (some s.current_path))
      (s.db.getPrevVisiblePath (some s.current_path)) = some cp) :
    ∃ s2, s.handleDeleteKeyEvent E ev = some (s2, BROWSER_SCREEN_INDEX) ∧
      s2.current_path = cp ∧ s2.mode = MODE_BROWSE ∧
      s2.calls = s.calls ++ [.deleteKey s.current_path] := by
  unfold handleDeleteKeyEvent
  simp [hdone, hacc, invoke, hok, refreshDatabase, hcp]

/-- Value of `deleteReposition` when the next path has at most two segments. -/
theorem deleteReposition_short (d nn : List String) (p : Option (List String))
    (h : nn.length ≤ 2) : deleteReposition d (some nn) p = some nn := by
  unfold deleteReposition
  have : ¬ ((nn.length : Int) > 2) := by omega
  simp [this]

/-- Value of `deleteReposition` when the next path has more than two
segments and the cursor path at least two. -/
theorem deleteReposition_long (d nn : List String) (p : Option (List String))
    (h : 2 < nn.length) (hd : 2 ≤ d.length) :
    deleteReposition d (some nn) p =
      if nn[nn.length - 2]? = d[d.length - 2]? then some nn
      else
        match p with
        | some pp => some pp
        | none => sliceTo d ((nn.length : Int) - 2) := by
  unfold deleteReposition
  have h1 : (nn.length : Int) > 2 := by omega
  have e1 : ((nn.length : Int) - 2).toNat = nn.length - 2 := by omega
  have e2 : ((d.length : Int) - 2).toNat = d.length - 2 := by omega
  have g1 : nn.length - 2 < nn.length := by omega
  have g2 : d.length - 2 < d.length := by omega
  have p1 : (0 : Int) ≤ (nn.length : Int) - 2 := by omega
  have p2 : (0 : Int) ≤ (d.length : Int) - 2 := by omega
  simp only [h1, if_true, indexAt, p1, p2, e1, e2]
  rw [List.getElem?_eq_getElem g1, List.getElem?_eq_getElem g2]
  simp

/-- The cursor after an accepted confirmation whose delete succeeds, case by
case as `handleDeleteKeyEvent` computes it, with `n` and `p` the captured next
and previous visible paths of the deleted cursor path and `n`, when present,
at most one segment longer than that path: `n` when `n` has at most two
segments; `n` when it has more and its second-to-last segment is that of the
cursor path; otherwise `p` when present and else the first `len(n)-2`
segments of the cursor path; without `n`, `p` when present and else the empty
path. -/
theorem handleDeleteKeyEvent_reposition_cases (E : Env W) (s : BrowserScreen W) (ev : Event)
    (n p : Option (List String))
    (hdone : (E.confirmKey s.confirm_modal ev).isDone = true)
    (hacc : (E.confirmKey s.confirm_modal ev).accepted = true)
    (hok : (E.exec s.world (.deleteKey s.current_path)).1 = none)
    (hn : s.db.getNextVisiblePath (some s.current_path) = n)
    (hp : s.db.getPrevVisiblePath (some s.current_path) = p)
    (hlen : ∀ nn, n = some nn → nn.length ≤ s.current_path.length + 1) :
    ∃ s2, s.handleDeleteKeyEvent E ev = some (s2, BROWSER_SCREEN_INDEX) ∧
      (∀ nn, n = some nn → nn.length ≤ 2 → s2.current_path = nn) ∧
      (∀ nn, n = some nn → 2 < nn.length →
        nn[nn.length - 2]? = s.current_path[s.current_path.length - 2]? →
        s2.current_path = nn) ∧
      (∀ nn pp, n = some nn → 2 < nn.length →
        nn[nn.length - 2]? ≠ s.current_path[s.current_path.length - 2]? →
        p = some pp → s2.current_path = pp) ∧
      (∀ nn, n = some nn → 2 < nn.length →
        nn[nn.length - 2]? ≠ s.current_path[s.current_path.length - 2]? →
        p = none → s2.current_path = s.current_path.take (nn.length - 2)) ∧
      (∀ pp, n = none → p = some pp → s2.current_path = pp) ∧
      (n = none → p = none → s2.current_path = []) := by
  subst hn hp
  -- the value of the reposition step, by cases on the two captured paths
  cases hN : s.db.getNextVisiblePath (some s.current_path) with
  | none =>
    cases hP : s.db.getPrevVisiblePath (some s.current_path) with
    | none =>
      obtain ⟨s2, h, hc, -⟩ := handleDeleteKeyEvent_accepted E s ev hdone hacc hok []
        (by rw [hN, hP]; simp [deleteReposition, sliceTo])
      exact ⟨s2, h, by simp, by simp, by simp, by simp, by simp, fun _ _ => hc⟩
    | some pp =>
      obtain ⟨s2, h, hc, -⟩ := handleDeleteKeyEvent_accepted E s ev hdone hacc hok pp
        (by rw [hN, hP]; simp [deleteReposition])
      exact ⟨s2, h, by simp, by simp, by simp, by simp, by simpa using hc, by simp⟩
  | some nn =>
    have hl := hlen nn hN
    by_cases hshort : nn.length ≤ 2
    · obtain ⟨s2, h, hc, -⟩ := handleDeleteKeyEvent_accepted E s ev hdone hacc hok nn
        (by rw [hN]; exact deleteReposition_short _ _ _ hshort)
      refine ⟨s2, h, ?_, ?_, ?_, ?_, by simp, by simp⟩
      · intro m hm _; cases hm; exact hc
      · intro m hm hm2; cases hm; omega
      · intro m pp hm hm2; cases hm; omega
      · intro m hm hm2; cases hm; omega
    · have hlong : 2 < nn.length := by omega
      have hd : 2 ≤ s.current_path.length := by omega
      have hval := deleteReposition_long s.current_path nn
        (s.db.getPrevVisiblePath (some s.current_path)) hlong hd
      by_cases hseg : nn[nn.length - 2]? = s.current_path[s.current_path.length - 2]?
      · rw [if_pos hseg] at hval
        obtain ⟨s2, h, hc, -⟩ := handleDeleteKeyEvent_accepted E s ev hdone hacc hok nn
          (by rw [hN]; exact hval)
        refine ⟨s2, h, ?_, ?_, ?_, ?_, by simp, by simp⟩
        · intro m hm _; cases hm; exact hc
        · intro m hm _ _; cases hm; exact hc
        · intro m pp hm _ hne; cases hm; exact absurd hseg hne
        · intro m hm _ hne; cases hm; exact absurd hseg hne
      · rw [if_neg hseg] at hval
        cases hP : s.db.getPrevVisiblePath (some s.current_path) with
        | some pp =>
          rw [hP] at hval
          obtain ⟨s2, h, hc, -⟩ := handleDeleteKeyEvent_accepted E s ev hdone hacc hok pp
            (by rw [hN, hP]; exact hval)
          refine ⟨s2, h, ?_, ?_, ?_, ?_, by simp, by simp⟩
          · intro m hm hm2; cases hm; omega
          · intro m hm _ he; cases hm; exact absurd he hseg
          · intro m qq hm _ _ hq; cases hm; cases hq; exact hc
          · intro m hm _ _ hq; cases hq
        | none =>
          rw [hP] at hval
          have hs : sliceTo s.current_path ((nn.length : Int) - 2) =
              some (s.current_path.take (nn.length - 2)) := by
            have e1 : ((nn.length : Int) - 2).toNat = nn.length - 2 := by omega
            have c1 : (0 : Int) ≤ (nn.length : Int) - 2 ∧
                (nn.length : Int) - 2 ≤ (s.current_path.length : Int) := by omega
            simp [sliceTo, c1, e1]
          obtain ⟨s2, h, hc, -⟩ := handleDeleteKeyEvent_accepted E s ev hdone hacc hok
            (s.current_path.take (nn.length - 2)) (by rw [hN, hP]; exact hval.trans hs)
          refine ⟨s2, h, ?_, ?_, ?_, ?_, by simp, by simp⟩
          · intro m hm hm2; cases hm; omega
          · intro m hm _ he; cases hm; exact absurd he hseg
          · intro m qq hm _ _ hq; cases hq
          · intro m hm _ _ _; cases hm; exact hc

/-- C1, the code at the failing inputs.  On `twoRoots` with the cursor on the
pair `A/x`, the captured next path `B` has another parent than `A/x` and the
captured previous path `A` is present, yet after the delete the cursor is on
`B`: the branch for a next path of at most two segments is taken although no
root bucket was deleted.  On `rootsZA` with the cursor on the expanded root
`A`, the captured next path is the pair `A/x` inside the deleted bucket and the
previous path `Z` is present, yet after the delete the cursor is on `A/x`,
which is no path of the refreshed forest. -/
theorem C1_delete_reposition_misfires :
    twoRoots.getNextVisiblePath (some ["A", "x"]) = some ["B"] ∧
    twoRoots.getPrevVisiblePath (some ["A", "x"]) = some ["A"] ∧
    List.dropLast ["B"] ≠ List.dropLast ["A", "x"] ∧
    ((exampleScreen twoRoots ["A", "x"] MODE_DELETE).handleDeleteKeyEvent
      (exampleEnv none twoRootsAfter "") (chEvent 'y')).map
        (fun r => (r.1.current_path, r.2)) = some (["B"], BROWSER_SCREEN_INDEX) ∧
    (["B"] : List String) ≠ ["A"] ∧
    rootsZA.getNextVisiblePath (some ["A"]) = some ["A", "x"] ∧
    rootsZA.getPrevVisiblePath (some ["A"]) = some ["Z"] ∧
    List.dropLast ["A", "x"] ≠ List.dropLast ["A"] ∧
    ((exampleScreen rootsZA ["A"] MODE_DELETE).handleDeleteKeyEvent
      (exampleEnv none rootsZAAfter "") (chEvent 'y')).map
        (fun r => (r.1.current_path, r.1.calls,
          (r.1.db.getGenericFromPath r.1.current_path).e,
          (r.1.db.buildVisiblePathSlice).1, r.2)) =
      some (["A", "x"], [.deleteKey ["A"]], some "Invalid Path", ["Z"],
        BROWSER_SCREEN_INDEX) := by
  refine ⟨by decide, by decide, by decide, by decide, by decide, by decide, by decide,
    by decide, by decide⟩

end Delete

section Tree

/-- A found container position holds a container with the name looked for. -/
theorem findBucket_some (bs : List BoltBucket) (n : String) (i : Nat)
    (h : findBucket bs n = some i) : ∃ b, bs[i]? = some b ∧ b.name = n := by
  have := List.findIdx?_of_eq_some h
  cases hb : bs[i]? with
  | none => simp [hb] at this
  | some b =>
    rw [hb] at this
    exact ⟨b, rfl, by simpa using this⟩

/-- A found pair position holds a pair with the key looked for. -/
theorem findPair_some (ps : List BoltPair) (k : String) (i : Nat)
    (h : findPair ps k = some i) : ∃ q, ps[i]? = some q ∧ q.key = k := by
  have := List.findIdx?_of_eq_some h
  cases hb : ps[i]? with
  | none => simp [hb] at this
  | some q =>
    rw [hb] at this
    exact ⟨q, rfl, by simpa using this⟩

/-- The pointer a path resolves to points to a container of the forest. -/
theorem bucketPtrFromPath_valid (path : List String) :
    ∀ (bs : List BoltBucket) (a : BucketPtr), bucketPtrFromPath bs path = some a →
      ∃ b, bucketAt bs a = some b := by
  induction path with
  | nil => intro bs a h; simp [bucketPtrFromPath] at h
  | cons n rest ih =>
    intro bs a h
    cases rest with
    | nil =>
      simp only [bucketPtrFromPath, Option.map_eq_some'] at h
      obtain ⟨i, hi, rfl⟩ := h
      obtain ⟨b, hb, -⟩ := findBucket_some bs n i hi
      exact ⟨b, by simpa [bucketAt] using hb⟩
    | cons m rest2 =>
      simp only [bucketPtrFromPath] at h
      cases hi : findBucket bs n with
      | none => simp [hi] at h
      | some i =>
        obtain ⟨b, hb, -⟩ := findBucket_some bs n i hi
        simp only [hi, hb, Option.map_eq_some'] at h
        obtain ⟨a2, ha2, rfl⟩ := h
        obtain ⟨c, hc⟩ := ih b.buckets a2 ha2
        cases a2 with
        | nil => simp [bucketAt] at hc
        | cons j r => exact ⟨c, by simpa [bucketAt, hb] using hc⟩

/-- The child containers after `setBuckets`. -/
theorem BoltBucket.buckets_setBuckets (b : BoltBucket) (v : List BoltBucket) :
    (b.setBuckets v).buckets = v := by
  cases b; rfl

/-- The pairs after `setPairs`. -/
theorem BoltBucket.pairs_setPairs (b : BoltBucket) (v : List BoltPair) :
    (b.setPairs v).pairs = v := by
  cases b; rfl

/-- The name after `setName`. -/
theorem BoltBucket.name_setName (b : BoltBucket) (v : String) :
    (b.setName v).name = v := by
  cases b; rfl

/-- Reading through a pointer after an in-place update through the same
pointer gives the updated container. -/
theorem bucketAt_modifyBucket (f : BoltBucket → BoltBucket) (a : BucketPtr) :
    ∀ (bs : List BoltBucket) (b : BoltBucket), bucketAt bs a = some b →
      bucketAt (modifyBucket f bs a) a = some (f b) := by
  induction a with
  | nil => intro bs b h; simp [bucketAt] at h
  | cons i rest ih =>
    intro bs b h
    cases rest with
    | nil =>
      simp only [bucketAt] at h
      have hi : i < bs.length := by
        rcases Nat.lt_or_ge i bs.length with h1 | h1
        · exact h1
        · rw [List.getElem?_eq_none h1] at h; cases h
      simp only [modifyBucket, h, bucketAt]
      exact List.getElem?_set_self hi
    | cons j r =>
      simp only [bucketAt] at h
      cases hb : bs[i]? with
      | none => simp [hb] at h
      | some c =>
        simp only [hb] at h
        have hi : i < bs.length := by
          rcases Nat.lt_or_ge i bs.length with h1 | h1
          · exact h1
          · rw [List.getElem?_eq_none h1] at hb; cases hb
        simp only [modifyBucket, hb, bucketAt, List.getElem?_set_self hi,
          BoltBucket.buckets_setBuckets]
        exact ih c.buckets b h

/-- Reading through a pair pointer after an in-place update through the same
pointer gives the updated pair. -/
theorem pairAt_modifyPair (f : BoltPair → BoltPair) (bs : List BoltBucket) (p : PairPtr)
    (q : BoltPair) (h : pairAt bs p = some q) :
    pairAt (modifyPair f bs p) p = some (f q) := by
  unfold pairAt at h
  cases hb : bucketAt bs p.owner with
  | none => simp [hb] at h
  | some b =>
    simp only [hb] at h
    have hi : p.idx < b.pairs.length := by
      rcases Nat.lt_or_ge p.idx b.pairs.length with h1 | h1
      · exact h1
      · rw [List.getElem?_eq_none h1] at h; cases h
    unfold pairAt modifyPair
    rw [bucketAt_modifyBucket _ p.owner bs b hb]
    simp only [h, BoltBucket.pairs_setPairs]
    exact List.getElem?_set_self hi

/-- The pair pointer a path resolves to points to a pair of the forest. -/
theorem pairPtrFromPath_valid (bs : List BoltBucket) (path : List String) (p : PairPtr)
    (h : pairPtrFromPath bs path = some p) : ∃ q, pairAt bs p = some q := by
  unfold pairPtrFromPath at h
  cases hk : path.getLast? with
  | none => simp [hk] at h
  | some k =>
    simp only [hk] at h
    cases ha : bucketPtrFromPath bs path.dropLast with
    | none => simp [ha] at h
    | some a =>
      simp only [ha] at h
      cases hb : bucketAt bs a with
      | none => simp [hb] at h
      | some b =>
        simp only [hb, Option.map_eq_some'] at h
        obtain ⟨i, hi, rfl⟩ := h
        obtain ⟨q, hq, -⟩ := findPair_some b.pairs k i hi
        exact ⟨q, by simp [pairAt, hb, hq]⟩

/-- A path that resolves to a container is not empty and its pointer is valid;
no pair is returned with it. -/
theorem getGenericFromPath_b (db : BoltDB) (path : List String) (b : BucketPtr)
    (h : (db.getGenericFromPath path).b = some b) :
    path ≠ [] ∧ (∃ n, bucketAt db.buckets b = some n) ∧
      (db.getGenericFromPath path).p = none ∧ (db.getGenericFromPath path).e = none := by
  unfold BoltDB.getGenericFromPath at h ⊢
  by_cases h0 : path = []
  · simp [h0] at h
  · simp only [h0, if_false] at h ⊢
    cases hp : pairPtrFromPath db.buckets path with
    | some p => simp [hp] at h
    | none =>
      simp only [hp] at h ⊢
      cases hb : bucketPtrFromPath db.buckets path with
      | none => simp [hb] at h
      | some a =>
        simp only [hb] at h ⊢
        cases h
        exact ⟨h0, bucketPtrFromPath_valid path db.buckets b hb, trivial, trivial⟩

/-- A path that resolves to a pair is not empty and its pointer is valid; no
container is returned with it. -/
theorem getGenericFromPath_p (db : BoltDB) (path : List String) (p : PairPtr)
    (h : (db.getGenericFromPath path).p = some p) :
    path ≠ [] ∧ (∃ q, pairAt db.buckets p = some q) ∧
      (db.getGenericFromPath path).b = none ∧ (db.getGenericFromPath path).e = none := by
  unfold BoltDB.getGenericFromPath at h ⊢
  by_cases h0 : path = []
  · simp [h0] at h
  · simp only [h0, if_false] at h ⊢
    cases hp : pairPtrFromPath db.buckets path with
    | some p2 =>
      simp only [hp] at h ⊢
      cases h
      exact ⟨h0, pairPtrFromPath_valid db.buckets path p hp, trivial, trivial⟩
    | none =>
      simp only [hp] at h
      cases hb : bucketPtrFromPath db.buckets path with
      | none => simp [hb] at h
      | some a => simp [hb] at h

/-- Assigning the last element of a non-empty slice. -/
theorem setLast_eq (s : List String) (v : String) (h : s ≠ []) :
    setLast s v = some (s.dropLast ++ [v]) := by
  unfold setLast
  have hl : s.length ≠ 0 := by simpa using h
  simp only [hl, if_false, Option.some.injEq]
  rw [List.set_eq_take_append_cons_drop, if_pos (by omega), List.dropLast_eq_take]
  have : s.length - 1 + 1 = s.length := by omega
  simp [this]

end Tree

section Projections

variable {W : Type}

@[simp] theorem setMessage_message (E : Env W) (s : BrowserScreen W) (m : String) :
    (s.setMessage E m).message = m := rfl
@[simp] theorem setMessage_db (E : Env W) (s : BrowserScreen W) (m : String) :
    (s.setMessage E m).db = s.db := rfl
@[simp] theorem setMessage_current_path (E : Env W) (s : BrowserScreen W) (m : String) :
    (s.setMessage E m).current_path = s.current_path := rfl
@[simp] theorem setMessage_mode (E : Env W) (s : BrowserScreen W) (m : String) :
    (s.setMessage E m).mode = s.mode := rfl
@[simp] theorem setMessage_calls (E : Env W) (s : BrowserScreen W) (m : String) :
    (s.setMessage E m).calls = s.calls := rfl
@[simp] theorem setMessage_world (E : Env W) (s : BrowserScreen W) (m : String) :
    (s.setMessage E m).world = s.world := rfl
@[simp] theorem setMessage_input_modal (E : Env W) (s : BrowserScreen W) (m : String) :
    (s.setMessage E m).input_modal = s.input_modal := rfl
@[simp] theorem setMessage_shadowDB (E : Env W) (s : BrowserScreen W) (m : String) :
    (s.setMessage E m).shadowDB = s.shadowDB := rfl

@[simp] theorem refreshDatabase_db (E : Env W) (s : BrowserScreen W) :
    (s.refreshDatabase E).db = E.syncOpenBuckets (E.readDatabase s.world s.db) s.db := rfl
@[simp] theorem refreshDatabase_shadowDB (E : Env W) (s : BrowserScreen W) :
    (s.refreshDatabase E).shadowDB = s.db := rfl
@[simp] theorem refreshDatabase_message (E : Env W) (s : BrowserScreen W) :
    (s.refreshDatabase E).message = s.message := rfl
@[simp] theorem refreshDatabase_current_path (E : Env W) (s : BrowserScreen W) :
    (s.refreshDatabase E).current_path = s.current_path := rfl
@[simp] theorem refreshDatabase_mode (E : Env W) (s : BrowserScreen W) :
    (s.refreshDatabase E).mode = s.mode := rfl
@[simp] theorem refreshDatabase_calls (E : Env W) (s : BrowserScreen W) :
    (s.refreshDatabase E).calls = s.calls := rfl
@[simp] theorem refreshDatabase_world (E : Env W) (s : BrowserScreen W) :
    (s.refreshDatabase E).world = s.world := rfl
@[simp] theorem refreshDatabase_input_modal (E : Env W) (s : BrowserScreen W) :
    (s.refreshDatabase E).input_modal = s.input_modal := rfl

@[simp] theorem expandParent_message (s : BrowserScreen W) (b : Option BucketPtr) :
    (s.expandParent b).message = s.message := by cases b <;> rfl
@[simp] theorem expandParent_current_path (s : BrowserScreen W) (b : Option BucketPtr) :
    (s.expandParent b).current_path = s.current_path := by cases b <;> rfl
@[simp] theorem expandParent_mode (s : BrowserScreen W) (b : Option BucketPtr) :
    (s.expandParent b).mode = s.mode := by cases b <;> rfl
@[simp] theorem expandParent_calls (s : BrowserScreen W) (b : Option BucketPtr) :
    (s.expandParent b).calls = s.calls := by cases b <;> rfl
@[simp] theorem expandParent_world (s : BrowserScreen W) (b : Option BucketPtr) :
    (s.expandParent b).world = s.world := by cases b <;> rfl
@[simp] theorem expandParent_input_modal (s : BrowserScreen W) (b : Option BucketPtr) :
    (s.expandParent b).input_modal = s.input_modal := by cases b <;> rfl

@[simp] theorem invoke_err (E : Env W) (s : BrowserScreen W) (c : StoreCall) :
    (s.invoke E c).1 = (E.exec s.world c).1 := rfl
@[simp] theorem invoke_calls (E : Env W) (s : BrowserScreen W) (c : StoreCall) :
    (s.invoke E c).2.calls = s.calls ++ [c] := rfl
@[simp] theorem invoke_world (E : Env W) (s : BrowserScreen W) (c : StoreCall) :
    (s.invoke E c).2.world = (E.exec s.world c).2 := rfl
@[simp] theorem invoke_db (E : Env W) (s : BrowserScreen W) (c : StoreCall) :
    (s.invoke E c).2.db = s.db := rfl
@[simp] theorem invoke_current_path (E : Env W) (s : BrowserScreen W) (c : StoreCall) :
    (s.invoke E c).2.current_path = s.current_path := rfl
@[simp] theorem invoke_mode (E : Env W) (s : BrowserScreen W) (c : StoreCall) :
    (s.invoke E c).2.mode = s.mode := rfl
@[simp] theorem invoke_message (E : Env W) (s : BrowserScreen W) (c : StoreCall) :
    (s.invoke E c).2.message = s.message := rfl
@[simp] theorem invoke_input_modal (E : Env W) (s : BrowserScreen W) (c : StoreCall) :
    (s.invoke E c).2.input_modal = s.input_modal := rfl
@[simp] theorem invoke_shadowDB (E : Env W) (s : BrowserScreen W) (c : StoreCall) :
    (s.invoke E c).2.shadowDB = s.shadowDB := rfl

/-- Method `startEditItem` changes neither the forest, the cursor, the message
nor the call log. -/
theorem startEditItem_frame (E : Env W) (s : BrowserScreen W) :
    (s.startEditItem E).1.db = s.db ∧ (s.startEditItem E).1.current_path = s.current_path ∧
    (s.startEditItem E).1.calls = s.calls ∧ (s.startEditItem E).1.message = s.message := by
  unfold startEditItem
  by_cases h : (s.db.getGenericFromPath s.current_path).e = none <;> simp [h]

/-- Method `startEditItem` enters the edit-value mode exactly when the cursor
path resolves, and leaves the mode alone otherwise. -/
theorem startEditItem_mode (E : Env W) (s : BrowserScreen W) :
    (s.startEditItem E).1.mode =
      if (s.db.getGenericFromPath s.current_path).e = none then MODE_CHANGE_VAL else s.mode := by
  unfold startEditItem
  by_cases h : (s.db.getGenericFromPath s.current_path).e = none <;> simp [h]

end Projections

section Insert

variable {W : Type}

/-- The anchor computation leaves the forest, the cursor, the file and the
call log alone, and changes the mode at most by adding the parent modifier. -/
theorem insertPath_frame (E : Env W) (s : BrowserScreen W) :
    (s.insertPath E).1.db = s.db ∧ (s.insertPath E).1.current_path = s.current_path ∧
    (s.insertPath E).1.world = s.world ∧ (s.insertPath E).1.calls = s.calls ∧
    (s.insertPath E).1.input_modal = s.input_modal ∧
    ((s.insertPath E).1.mode = s.mode ∨
      (s.insertPath E).1.mode = s.mode ||| MODE_MOD_TO_PARENT) := by
  unfold insertPath
  by_cases h0 : s.current_path.length > 0
  · by_cases he : (s.db.getGenericFromPath s.current_path).e ≠ none <;>
    by_cases hp : (s.db.getGenericFromPath s.current_path).p ≠ none <;>
    simp only [h0, he, hp, if_true, if_false, setMessage] <;>
    split_ifs <;> simp
  · simp [h0]

/-- The anchor depends on the forest, the cursor path and the mode only. -/
theorem insertPath_congr (E : Env W) (s t : BrowserScreen W) (hdb : t.db = s.db)
    (hcp : t.current_path = s.current_path) (hm : t.mode = s.mode) :
    (t.insertPath E).2 = (s.insertPath E).2 := by
  unfold insertPath
  rw [hdb, hcp]
  by_cases h0 : s.current_path.length > 0
  · by_cases he : (s.db.getGenericFromPath s.current_path).e ≠ none <;>
    by_cases hp : (s.db.getGenericFromPath s.current_path).p ≠ none <;>
    simp only [h0, he, hp, if_true, if_false, setMessage, hcp, hm] <;>
    split_ifs <;> simp [hcp]
  · simp [h0]

/-- C2: in `handleInsertKeyEvent` in an insert-pair mode (with or without the
parent modifier), for the anchor `a` the handler computes and the entered name
`z`: when the input completes, the handler returns, the one store call it makes
is the insert of the pair `(a, z)` with the empty string as value, and if that
insert succeeds and `a ++ [z]` resolves in the refreshed forest, then
afterwards `current_path = a ++ [z]` and the mode is `MODE_CHANGE_VAL`, not
`MODE_BROWSE`. -/
theorem C2_insert_pair_chains_edit (E : Env W) (s : BrowserScreen W) (ev : Event)
    (a : List String) (z : String)
    (hmode : s.mode = MODE_INSERT_PAIR ∨ s.mode = MODE_INSERT_PAIR ||| MODE_MOD_TO_PARENT)
    (hkey : ev.Key ≠ KeyEsc)
    (hdone : (E.inputKey s.input_modal ev).isDone = true)
    (hz : (E.inputKey s.input_modal ev).value = z)
    (ha : (s.insertPath E).2 = a) :
    ∃ s2, s.handleInsertKeyEvent E ev = some (s2, BROWSER_SCREEN_INDEX) ∧
      s2.calls = s.calls ++ [.insertPair a z ""] ∧
      ((E.exec s.world (.insertPair a z "")).1 = none →
        (s2.db.getGenericFromPath (a ++ [z])).e = none →
        s2.current_path = a ++ [z] ∧ s2.mode = MODE_CHANGE_VAL ∧ s2.mode ≠ MODE_BROWSE) := by
  unfold handleInsertKeyEvent
  simp only [hkey, if_false, hdone, if_true, hz]
  generalize hS : ({ s with input_modal := (E.inputKey s.input_modal ev).Clear } :
    BrowserScreen W) = S
  have hSdb : S.db = s.db := by rw [← hS]
  have hScp : S.current_path = s.current_path := by rw [← hS]
  have hSm : S.mode = s.mode := by rw [← hS]
  have hSw : S.world = s.world := by rw [← hS]
  have hSc : S.calls = s.calls := by rw [← hS]
  have hanchor : (S.insertPath E).2 = a := (insertPath_congr E s S hSdb hScp hSm).trans ha
  obtain ⟨hdb, hcp, hw, hc, -, hm⟩ := insertPath_frame E S
  generalize S.insertPath E = r at hanchor hdb hcp hw hc hm ⊢
  obtain ⟨s3, a3⟩ := r
  simp only at hanchor hdb hcp hw hc hm
  subst hanchor
  rw [hSw] at hw
  rw [hSc] at hc
  rw [hSm] at hm
  have hm3 : s3.mode = 68 ∨ s3.mode = 76 := by
    rcases hmode with h | h <;> rcases hm with h2 | h2 <;> rw [h2, h] <;> decide
  have hb : ¬ (s3.mode &&& MODE_INSERT_BUCKET = MODE_INSERT_BUCKET) := by
    rcases hm3 with h | h <;> rw [h] <;> decide
  have hp : s3.mode &&& MODE_INSERT_PAIR = MODE_INSERT_PAIR := by
    rcases hm3 with h | h <;> rw [h] <;> decide
  simp only [hb, hp, if_false, if_true, invoke_err, hw]
  cases hr : (E.exec s.world (StoreCall.insertPair a3 z "")).1 with
  | some err =>
    refine ⟨_, rfl, ?_, ?_⟩
    · simp [hc]
    · intro h; cases h
  | none =>
    refine ⟨_, rfl, ?_, ?_⟩
    · rw [(startEditItem_frame E _).2.2.1]
      simp [hc]
    · intro _ hres
      rw [(startEditItem_frame E _).1] at hres
      rw [(startEditItem_frame E _).2.1, startEditItem_mode]
      simp only [refreshDatabase_db, refreshDatabase_current_path, refreshDatabase_mode] at hres ⊢
      rw [if_pos hres]
      exact ⟨trivial, rfl, by decide⟩

/-- Witness of C2: on `oneRoot` with the cursor on `A` in the insert-pair mode,
entering `z` asks the store for the pair `(A, z)` with the empty value and
leaves the cursor on `A/z` in the edit-value mode. -/
theorem C2_insert_pair_chains_edit_witness :
    (exampleScreen oneRoot ["A"] MODE_INSERT_PAIR).mode = MODE_INSERT_PAIR ∧
    ((exampleScreen oneRoot ["A"] MODE_INSERT_PAIR).insertPath
      (exampleEnv none oneRootWithZ "z")).2 = ["A"] ∧
    ∃ s2, (exampleScreen oneRoot ["A"] MODE_INSERT_PAIR).handleInsertKeyEvent
        (exampleEnv none oneRootWithZ "z") (chEvent 'z') = some (s2, BROWSER_SCREEN_INDEX) ∧
      s2.calls = [.insertPair ["A"] "z" ""] ∧
      s2.current_path = ["A", "z"] ∧ s2.mode = MODE_CHANGE_VAL := by
  refine ⟨rfl, by decide, ?_⟩
  obtain ⟨s2, h, hc, himp⟩ := C2_insert_pair_chains_edit (exampleEnv none oneRootWithZ "z")
    (exampleScreen oneRoot ["A"] MODE_INSERT_PAIR) (chEvent 'z') ["A"] "z"
    (Or.inl rfl) (by decide) rfl rfl (by decide)
  have hdb : ((exampleScreen oneRoot ["A"] MODE_INSERT_PAIR).handleInsertKeyEvent
      (exampleEnv none oneRootWithZ "z") (chEvent 'z')).map
        (fun r => (r.1.db.getGenericFromPath (["A"] ++ ["z"])).e) = some none := by decide
  rw [h] at hdb
  simp only [Option.map_some', Option.some.injEq] at hdb
  obtain ⟨h1, h2, -⟩ := himp rfl hdb
  exact ⟨s2, h, by simpa using hc, h1, h2⟩

/-- C3 (as amended): for every non-empty `current_path`, when the current node
is not a pair, the insert anchor that `handleInsertKeyEvent` computes in a
mode carrying `MODE_MOD_TO_PARENT` is the cursor path without its last
segment, exactly one segment shorter than the anchor it computes in the
current-level mode, which is the cursor path itself; when the current node is
a pair, the two anchors are equal, both the cursor path without its last
segment. -/
theorem C3_anchor_levels {W : Type} (E : Env W) (s : BrowserScreen W) (m : BrowserMode)
    (hm : m = MODE_INSERT_BUCKET ∨ m = MODE_INSERT_PAIR)
    (hne : s.current_path ≠ []) :
    ((s.db.getGenericFromPath s.current_path).p = none →
      (({ s with mode := m } : BrowserScreen W).insertPath E).2 = s.current_path ∧
      (({ s with mode := m ||| MODE_MOD_TO_PARENT } : BrowserScreen W).insertPath E).2 =
        s.current_path.dropLast ∧
      (({ s with mode := m ||| MODE_MOD_TO_PARENT } : BrowserScreen W).insertPath E).2.length + 1 =
        (({ s with mode := m } : BrowserScreen W).insertPath E).2.length) ∧
    ((s.db.getGenericFromPath s.current_path).p ≠ none →
      (({ s with mode := m } : BrowserScreen W).insertPath E).2 = s.current_path.dropLast ∧
      (({ s with mode := m ||| MODE_MOD_TO_PARENT } : BrowserScreen W).insertPath E).2 =
        s.current_path.dropLast) := by
  have hpos : s.current_path.length > 0 := List.length_pos.mpr hne
  have hlen : s.current_path.dropLast.length + 1 = s.current_path.length := by
    rw [List.length_dropLast]; omega
  have hdrop : s.current_path.length ≤ 1 → s.current_path.dropLast = [] := by
    intro h
    apply List.eq_nil_of_length_eq_zero
    rw [List.length_dropLast]; omega
  have hC : ¬ (m &&& MODE_MOD_TO_PARENT = MODE_MOD_TO_PARENT) := by
    rcases hm with h | h <;> rw [h] <;> decide
  have hP : (m ||| MODE_MOD_TO_PARENT) &&& MODE_MOD_TO_PARENT = MODE_MOD_TO_PARENT := by
    rcases hm with h | h <;> rw [h] <;> decide
  have hPP : (m ||| MODE_MOD_TO_PARENT ||| MODE_MOD_TO_PARENT) &&& MODE_MOD_TO_PARENT =
      MODE_MOD_TO_PARENT := by
    rcases hm with h | h <;> rw [h] <;> decide
  constructor
  · intro hp
    have hp2 : ¬ ((s.db.getGenericFromPath s.current_path).p ≠ none) := by simp [hp]
    have e1 : (({ s with mode := m } : BrowserScreen W).insertPath E).2 = s.current_path := by
      unfold insertPath
      by_cases he : (s.db.getGenericFromPath s.current_path).e ≠ none <;>
        simp [hpos, he, hp, hC]
    have e2 : (({ s with mode := m ||| MODE_MOD_TO_PARENT } : BrowserScreen W).insertPath E).2 =
        s.current_path.dropLast := by
      unfold insertPath
      by_cases he : (s.db.getGenericFromPath s.current_path).e ≠ none <;>
      by_cases h1 : s.current_path.length > 1 <;>
        simp [hpos, he, hp, hP, h1, List.dropLast_eq_take] <;>
        (have hd0 := hdrop (by omega); rw [List.dropLast_eq_take] at hd0; simpa using hd0.symm)
    exact ⟨e1, e2, by rw [e1, e2, hlen]⟩
  · intro hp
    have e1 : (({ s with mode := m } : BrowserScreen W).insertPath E).2 =
        s.current_path.dropLast := by
      unfold insertPath
      by_cases he : (s.db.getGenericFromPath s.current_path).e ≠ none <;>
      by_cases h1 : s.current_path.length > 1 <;>
        simp [hpos, he, hp, hP, h1, List.dropLast_eq_take] <;>
        (have hd0 := hdrop (by omega); rw [List.dropLast_eq_take] at hd0; simpa using hd0.symm)
    have e2 : (({ s with mode := m ||| MODE_MOD_TO_PARENT } : BrowserScreen W).insertPath E).2 =
        s.current_path.dropLast := by
      unfold insertPath
      by_cases he : (s.db.getGenericFromPath s.current_path).e ≠ none <;>
      by_cases h1 : s.current_path.length > 1 <;>
        simp [hpos, he, hp, hPP, h1, List.dropLast_eq_take] <;>
        (have hd0 := hdrop (by omega); rw [List.dropLast_eq_take] at hd0; simpa using hd0.symm)
    exact ⟨e1, e2⟩

/-- Witness of C3: on the example forest with the cursor on the container
`A/C`, the current-level anchor of a bucket insert is `A/C` and the
parent-level anchor is `A`. -/
theorem C3_anchor_levels_witness :
    (exampleScreen exampleForest ["A", "C"] 0).current_path ≠ [] ∧
    (({ exampleScreen exampleForest ["A", "C"] 0 with mode := MODE_INSERT_BUCKET } :
      BrowserScreen BoltDB).insertPath (exampleEnv none exampleForest "")).2 = ["A", "C"] ∧
    (({ exampleScreen exampleForest ["A", "C"] 0 with
        mode := MODE_INSERT_BUCKET ||| MODE_MOD_TO_PARENT } :
      BrowserScreen BoltDB).insertPath (exampleEnv none exampleForest "")).2 = ["A"] :=
  ⟨by decide,
   ((C3_anchor_levels (exampleEnv none exampleForest "")
      (exampleScreen exampleForest ["A", "C"] 0) MODE_INSERT_BUCKET (Or.inl rfl)
      (by decide)).1 (by decide)).1,
   ((C3_anchor_levels (exampleEnv none exampleForest "")
      (exampleScreen exampleForest ["A", "C"] 0) MODE_INSERT_BUCKET (Or.inl rfl)
      (by decide)).1 (by decide)).2.1⟩

/-- Counterexample to C3 as stated: on the example forest with the cursor on
the pair `A/x`, the parent-level anchor and the current-level anchor of a pair
insert are both `A`, so the first is not one segment shorter than the
second. -/
theorem C3_counterexample :
    (exampleForest.getGenericFromPath ["A", "x"]).p ≠ none ∧
    ((exampleScreen exampleForest ["A", "x"] (MODE_INSERT_PAIR ||| MODE_MOD_TO_PARENT)).insertPath
      (exampleEnv none exampleForest "")).2 = ["A"] ∧
    ((exampleScreen exampleForest ["A", "x"] MODE_INSERT_PAIR).insertPath
      (exampleEnv none exampleForest "")).2 = ["A"] ∧
    ¬ (((exampleScreen exampleForest ["A", "x"]
          (MODE_INSERT_PAIR ||| MODE_MOD_TO_PARENT)).insertPath
        (exampleEnv none exampleForest "")).2.length + 1 =
      ((exampleScreen exampleForest ["A", "x"] MODE_INSERT_PAIR).insertPath
        (exampleEnv none exampleForest "")).2.length) := by
  refine ⟨by decide, by decide, by decide, by decide⟩

end Insert

section Rename

variable {W : Type}

/-- C4: in `handleInputKeyEvent` in `MODE_CHANGE_KEY`, when the input completes
with the name `z` on a `current_path` that resolves to a bucket or a pair, the
handler returns in `MODE_BROWSE` and its one store call is the rename
(`renameBucket` for a bucket, `updatePairKey` for a pair) with the old path;
if the call succeeds, `current_path` is the old path with its last segment
replaced by `z` and the name or key of the node, read through the pointer the
path resolved to, is `z`; if it fails, `current_path` and the forest are
unchanged and the message is set to the error text. -/
theorem C4_rename_key (E : Env W) (s : BrowserScreen W) (ev : Event) (z : String)
    (hmode : s.mode = MODE_CHANGE_KEY)
    (hkey : ev.Key ≠ KeyEsc)
    (hdone : (E.inputKey s.input_modal ev).isDone = true)
    (hz : (E.inputKey s.input_modal ev).value = z)
    (hres : (s.db.getGenericFromPath s.current_path).b ≠ none ∨
      (s.db.getGenericFromPath s.current_path).p ≠ none) :
    ∃ s2, s.handleInputKeyEvent E ev = some (s2, BROWSER_SCREEN_INDEX) ∧
      s2.mode = MODE_BROWSE ∧
      (∀ b, (s.db.getGenericFromPath s.current_path).b = some b →
        s2.calls = s.calls ++ [.renameBucket s.current_path z] ∧
        ((E.exec s.world (.renameBucket s.current_path z)).1 = none →
          s2.current_path = s.current_path.dropLast ++ [z] ∧
          (bucketAt s2.shadowDB.buckets b).map BoltBucket.name = some z) ∧
        ((E.exec s.world (.renameBucket s.current_path z)).1 ≠ none →
          s2.current_path = s.current_path ∧ s2.db = s.db ∧
          s2.message = "Error renaming bucket.")) ∧
      (∀ p, (s.db.getGenericFromPath s.current_path).p = some p →
        s2.calls = s.calls ++ [.updatePairKey s.current_path z] ∧
        ((E.exec s.world (.updatePairKey s.current_path z)).1 = none →
          s2.current_path = s.current_path.dropLast ++ [z] ∧
          (pairAt s2.shadowDB.buckets p).map BoltPair.key = some z) ∧
        ((E.exec s.world (.updatePairKey s.current_path z)).1 ≠ none →
          s2.current_path = s.current_path ∧ s2.db = s.db ∧
          s2.message = "Error occurred updating Pair.")) := by
  unfold handleInputKeyEvent
  simp only [hkey, if_false, hdone, if_true, hz, hmode]
  cases hb : (s.db.getGenericFromPath s.current_path).b with
  | some b =>
    obtain ⟨hne, ⟨n, hn⟩, hp, -⟩ := getGenericFromPath_b s.db s.current_path b hb
    simp only [invoke_err]
    by_cases herr : (E.exec s.world (.renameBucket s.current_path z)).1 = none
    · simp only [herr, ne_eq, not_true_eq_false, if_false, invoke_current_path, invoke_db,
        setLast_eq _ _ hne]
      refine ⟨_, rfl, rfl, ?_, ?_⟩
      · intro b2 hb2
        cases hb2
        refine ⟨by simp [invoke], fun _ => ⟨by simp, ?_⟩, fun h => h.elim⟩
        simp [bucketAt_modifyBucket _ b s.db.buckets n hn, BoltBucket.name_setName]
      · intro p2 hp2
        rw [hp] at hp2
        cases hp2
    · simp only [herr, ne_eq, not_false_eq_true, if_true]
      refine ⟨_, rfl, rfl, ?_, ?_⟩
      · intro b2 hb2
        refine ⟨by simp [invoke], fun h => h.elim, fun _ => ⟨by simp, by simp, by simp⟩⟩
      · intro p2 hp2
        rw [hp] at hp2
        cases hp2
  | none =>
    have hp0 : (s.db.getGenericFromPath s.current_path).p ≠ none := by
      rcases hres with h | h
      · exact absurd hb h
      · exact h
    cases hp : (s.db.getGenericFromPath s.current_path).p with
    | none => exact absurd hp hp0
    | some p =>
      obtain ⟨hne, ⟨q, hq⟩, -, -⟩ := getGenericFromPath_p s.db s.current_path p hp
      simp only [invoke_err]
      by_cases herr : (E.exec s.world (.updatePairKey s.current_path z)).1 = none
      · simp only [herr, ne_eq, not_true_eq_false, if_false, invoke_current_path, invoke_db,
        setLast_eq _ _ hne]
        refine ⟨_, rfl, rfl, ?_, ?_⟩
        · intro b2 hb2
          cases hb2
        · intro p2 hp2
          cases hp2
          refine ⟨by simp [invoke], fun _ => ⟨by simp, ?_⟩, fun h => h.elim⟩
          simp [pairAt_modifyPair _ s.db.buckets p q hq]
      · simp only [herr, ne_eq, not_false_eq_true, if_true]
        refine ⟨_, rfl, rfl, ?_, ?_⟩
        · intro b2 hb2
          cases hb2
        · intro p2 hp2
          refine ⟨by simp [invoke], fun h => h.elim, fun _ => ⟨by simp, by simp, by simp⟩⟩

/-- Witness of C4: on `oneRoot` with the cursor on `A`, renaming to `N` with a
store that accepts calls `renameBucket` with the path `A`, moves the cursor to
`N` and leaves the node named `N`, in browse mode. -/
theorem C4_rename_key_witness :
    (exampleScreen oneRoot ["A"] MODE_CHANGE_KEY).mode = MODE_CHANGE_KEY ∧
    (oneRoot.getGenericFromPath ["A"]).b = some [0] ∧
    ∃ s2, (exampleScreen oneRoot ["A"] MODE_CHANGE_KEY).handleInputKeyEvent
        (exampleEnv none oneRootRenamed "N") (chEvent 'N') = some (s2, BROWSER_SCREEN_INDEX) ∧
      s2.mode = MODE_BROWSE ∧ s2.calls = [.renameBucket ["A"] "N"] ∧
      s2.current_path = ["N"] ∧
      (bucketAt s2.shadowDB.buckets [0]).map BoltBucket.name = some "N" := by
  refine ⟨rfl, by decide, ?_⟩
  obtain ⟨s2, h, hm, hb, -⟩ := C4_rename_key (exampleEnv none oneRootRenamed "N")
    (exampleScreen oneRoot ["A"] MODE_CHANGE_KEY) (chEvent 'N') "N" rfl (by decide) rfl rfl
    (Or.inl (by decide))
  obtain ⟨hc, hok, -⟩ := hb [0] (by decide)
  obtain ⟨h1, h2⟩ := hok rfl
  exact ⟨s2, h, hm, by simpa using hc, by simpa using h1, h2⟩

/-- In `handleInputKeyEvent`, Esc and a completed input both end in browse
mode, and the handler always returns. -/
theorem handleInputKeyEvent_browse (E : Env W) (s : BrowserScreen W) (ev : Event)
    (h : ev.Key = KeyEsc ∨ (E.inputKey s.input_modal ev).isDone = true) :
    ∃ s2, s.handleInputKeyEvent E ev = some (s2, BROWSER_SCREEN_INDEX) ∧
      s2.mode = MODE_BROWSE := by
  unfold handleInputKeyEvent
  by_cases hkey : ev.Key = KeyEsc
  · simp only [hkey, if_true]
    exact ⟨_, rfl, rfl⟩
  · have hdone : (E.inputKey s.input_modal ev).isDone = true := by
      rcases h with h | h
      · exact absurd h hkey
      · exact h
    simp only [hkey, if_false, hdone, if_true]
    cases hb : (s.db.getGenericFromPath s.current_path).b with
    | some b =>
      obtain ⟨hne, -, -, -⟩ := getGenericFromPath_b s.db s.current_path b hb
      simp only [invoke_err, invoke_current_path, setLast_eq _ _ hne]
      split_ifs <;> exact ⟨_, rfl, rfl⟩
    | none =>
      cases hp : (s.db.getGenericFromPath s.current_path).p with
      | none => exact ⟨_, rfl, rfl⟩
      | some p =>
        obtain ⟨hne, -, -, -⟩ := getGenericFromPath_p s.db s.current_path p hp
        simp only [invoke_err, invoke_current_path, setLast_eq _ _ hne]
        split_ifs <;> exact ⟨_, rfl, rfl⟩

end Rename

section InsertDone

variable {W : Type}

/-- A completed input in an insert-bucket mode: the handler returns in browse
mode, its one store call is the bucket insert at the anchor, the cursor is the
anchor extended by the name, and an error of the store is reported with the
anchor. -/
theorem handleInsertKeyEvent_bucket_done (E : Env W) (s : BrowserScreen W) (ev : Event)
    (hmode : s.mode = MODE_INSERT_BUCKET ∨ s.mode = MODE_INSERT_BUCKET ||| MODE_MOD_TO_PARENT)
    (hkey : ev.Key ≠ KeyEsc)
    (hdone : (E.inputKey s.input_modal ev).isDone = true) :
    ∃ s2, s.handleInsertKeyEvent E ev = some (s2, BROWSER_SCREEN_INDEX) ∧
      s2.mode = MODE_BROWSE ∧
      s2.calls = s.calls ++
        [.insertBucket (s.insertPath E).2 (E.inputKey s.input_modal ev).value] ∧
      s2.current_path = (s.insertPath E).2 ++ [(E.inputKey s.input_modal ev).value] ∧
      ∀ err, (E.exec s.world
          (.insertBucket (s.insertPath E).2 (E.inputKey s.input_modal ev).value)).1 = some err →
        s2.message = err ++ " => " ++ fmtPath (s.insertPath E).2 := by
  unfold handleInsertKeyEvent
  simp only [hkey, if_false, hdone, if_true]
  generalize hS : ({ s with input_modal := (E.inputKey s.input_modal ev).Clear } :
    BrowserScreen W) = S
  have hSdb : S.db = s.db := by rw [← hS]
  have hScp : S.current_path = s.current_path := by rw [← hS]
  have hSm : S.mode = s.mode := by rw [← hS]
  have hSw : S.world = s.world := by rw [← hS]
  have hSc : S.calls = s.calls := by rw [← hS]
  have hanchor : (S.insertPath E).2 = (s.insertPath E).2 := insertPath_congr E s S hSdb hScp hSm
  obtain ⟨hdb, hcp, hw, hc, -, hm⟩ := insertPath_frame E S
  generalize (s.insertPath E).2 = a at hanchor ⊢
  generalize S.insertPath E = r at hanchor hdb hcp hw hc hm ⊢
  obtain ⟨s3, a3⟩ := r
  simp only at hanchor hdb hcp hw hc hm
  subst hanchor
  rw [hSw] at hw
  rw [hSc] at hc
  rw [hSm] at hm
  have hm3 : s3.mode = 65 ∨ s3.mode = 73 := by
    rcases hmode with h | h <;> rcases hm with h2 | h2 <;> rw [h2, h] <;> decide
  have hb : s3.mode &&& MODE_INSERT_BUCKET = MODE_INSERT_BUCKET := by
    rcases hm3 with h | h <;> rw [h] <;> decide
  simp only [hb, if_true, invoke_err, hw]
  refine ⟨_, rfl, rfl, ?_, rfl, ?_⟩
  · cases hr : (E.exec s.world
      (StoreCall.insertBucket a3 (E.inputKey s.input_modal ev).value)).1 <;> simp [hc]
  · intro err herr
    simp [herr]

/-- A completed input in an insert-pair mode whose store insert fails: the
handler returns in browse mode, its one store call is the pair insert at the
anchor with the empty value, and the error is reported with the anchor. -/
theorem handleInsertKeyEvent_pair_failed (E : Env W) (s : BrowserScreen W) (ev : Event)
    (err : String)
    (hmode : s.mode = MODE_INSERT_PAIR ∨ s.mode = MODE_INSERT_PAIR ||| MODE_MOD_TO_PARENT)
    (hkey : ev.Key ≠ KeyEsc)
    (hdone : (E.inputKey s.input_modal ev).isDone = true)
    (herr : (E.exec s.world
      (.insertPair (s.insertPath E).2 (E.inputKey s.input_modal ev).value "")).1 = some err) :
    ∃ s2, s.handleInsertKeyEvent E ev = some (s2, BROWSER_SCREEN_INDEX) ∧
      s2.mode = MODE_BROWSE ∧
      s2.calls = s.calls ++
        [.insertPair (s.insertPath E).2 (E.inputKey s.input_modal ev).value ""] ∧
      s2.message = err ++ " => " ++ fmtPath (s.insertPath E).2 := by
  unfold handleInsertKeyEvent
  simp only [hkey, if_false, hdone, if_true]
  generalize hS : ({ s with input_modal := (E.inputKey s.input_modal ev).Clear } :
    BrowserScreen W) = S
  have hSdb : S.db = s.db := by rw [← hS]
  have hScp : S.current_path = s.current_path := by rw [← hS]
  have hSm : S.mode = s.mode := by rw [← hS]
  have hSw : S.world = s.world := by rw [← hS]
  have hSc : S.calls = s.calls := by rw [← hS]
  have hanchor : (S.insertPath E).2 = (s.insertPath E).2 := insertPath_congr E s S hSdb hScp hSm
  obtain ⟨hdb, hcp, hw, hc, -, hm⟩ := insertPath_frame E S
  generalize (s.insertPath E).2 = a at hanchor herr ⊢
  generalize S.insertPath E = r at hanchor hdb hcp hw hc hm ⊢
  obtain ⟨s3, a3⟩ := r
  simp only at hanchor hdb hcp hw hc hm
  subst hanchor
  rw [hSw] at hw
  rw [hSc] at hc
  rw [hSm] at hm
  have hm3 : s3.mode = 68 ∨ s3.mode = 76 := by
    rcases hmode with h | h <;> rcases hm with h2 | h2 <;> rw [h2, h] <;> decide
  have hb : ¬ (s3.mode &&& MODE_INSERT_BUCKET = MODE_INSERT_BUCKET) := by
    rcases hm3 with h | h <;> rw [h] <;> decide
  have hp : s3.mode &&& MODE_INSERT_PAIR = MODE_INSERT_PAIR := by
    rcases hm3 with h | h <;> rw [h] <;> decide
  simp only [hb, hp, if_false, if_true, invoke_err, hw, herr]
  exact ⟨_, rfl, rfl, by simp [hc], by simp⟩

/-- Esc in `handleInsertKeyEvent` over a non-empty forest: browse mode, the
cursor and the call log unchanged. -/
theorem handleInsertKeyEvent_esc (E : Env W) (s : BrowserScreen W) (ev : Event)
    (hkey : ev.Key = KeyEsc) (hne : s.db.buckets ≠ []) :
    ∃ s2, s.handleInsertKeyEvent E ev = some (s2, BROWSER_SCREEN_INDEX) ∧
      s2.mode = MODE_BROWSE ∧ s2.current_path = s.current_path ∧ s2.calls = s.calls ∧
      s2.world = s.world ∧ s2.db = s.db := by
  unfold handleInsertKeyEvent
  have : ¬ (s.db.buckets.length = 0) := by simpa using hne
  simp only [hkey, if_true, this, if_false]
  exact ⟨_, rfl, rfl, rfl, rfl, rfl, rfl⟩

/-- The reposition step succeeds when the captured next path is at most one
segment longer than the cursor path. -/
theorem deleteReposition_isSome (d : List String) (n p : Option (List String))
    (h : ∀ nn, n = some nn → nn.length ≤ d.length + 1) :
    ∃ cp, deleteReposition d n p = some cp := by
  cases n with
  | none => cases p <;> simp [deleteReposition, sliceTo]
  | some nn =>
    have hl := h nn rfl
    by_cases hshort : nn.length ≤ 2
    · exact ⟨nn, deleteReposition_short _ _ _ hshort⟩
    · rw [deleteReposition_long d nn p (by omega) (by omega)]
      split_ifs
      · exact ⟨_, rfl⟩
      · cases p with
        | some pp => exact ⟨_, rfl⟩
        | none =>
          have c1 : (0 : Int) ≤ (nn.length : Int) - 2 ∧
              (nn.length : Int) - 2 ≤ (d.length : Int) := by omega
          simp [sliceTo, c1]

/-- In `handleDeleteKeyEvent`, a done confirmation ends in browse mode and the
handler returns: always when the confirmation is declined or the delete
fails, and, when the delete is accepted and succeeds, provided the reposition
step is within bounds. -/
theorem handleDeleteKeyEvent_browse (E : Env W) (s : BrowserScreen W) (ev : Event)
    (hdone : (E.confirmKey s.confirm_modal ev).isDone = true)
    (hlen : (E.confirmKey s.confirm_modal ev).accepted = true →
      (E.exec s.world (.deleteKey s.current_path)).1 = none →
      ∀ nn, s.db.getNextVisiblePath (some s.current_path) = some nn →
        nn.length ≤ s.current_path.length + 1) :
    ∃ s2, s.handleDeleteKeyEvent E ev = some (s2, BROWSER_SCREEN_INDEX) ∧
      s2.mode = MODE_BROWSE := by
  by_cases hacc : (E.confirmKey s.confirm_modal ev).accepted = true
  · by_cases hok : (E.exec s.world (.deleteKey s.current_path)).1 = none
    · obtain ⟨cp, hcp⟩ := deleteReposition_isSome s.current_path
        (s.db.getNextVisiblePath (some s.current_path))
        (s.db.getPrevVisiblePath (some s.current_path)) (hlen hacc hok)
      obtain ⟨s2, h, -, hm, -⟩ := handleDeleteKeyEvent_accepted E s ev hdone hacc hok cp hcp
      exact ⟨s2, h, hm⟩
    · unfold handleDeleteKeyEvent
      simp only [hdone, if_true, hacc, invoke_err, hok, if_false]
      exact ⟨_, rfl, rfl⟩
  · unfold handleDeleteKeyEvent
    simp only [hdone, if_true, hacc]
    exact ⟨_, rfl, rfl⟩

end InsertDone

section Dispatch

variable {W : Type}

/-- Dispatch of `handleKeyEvent` to the input handler. -/
theorem handleKeyEvent_input (E : Env W) (s : BrowserScreen W) (ev : Event)
    (h0 : s.mode ≠ 0) (h1 : s.mode ≠ MODE_BROWSE)
    (h2 : s.mode &&& MODE_CHANGE = MODE_CHANGE) :
    s.handleKeyEvent E ev = s.handleInputKeyEvent E ev := by
  unfold handleKeyEvent
  simp only [h0, if_false, h1, h2, if_true]

/-- Dispatch of `handleKeyEvent` to the insert handler. -/
theorem handleKeyEvent_insert (E : Env W) (s : BrowserScreen W) (ev : Event)
    (h0 : s.mode ≠ 0) (h1 : s.mode ≠ MODE_BROWSE)
    (h2 : s.mode &&& MODE_CHANGE ≠ MODE_CHANGE)
    (h3 : s.mode &&& MODE_INSERT = MODE_INSERT) :
    s.handleKeyEvent E ev = s.handleInsertKeyEvent E ev := by
  unfold handleKeyEvent
  simp only [h0, if_false, h1, h2, h3, if_true]

/-- Dispatch of `handleKeyEvent` to the delete handler. -/
theorem handleKeyEvent_delete (E : Env W) (s : BrowserScreen W) (ev : Event)
    (h : s.mode = MODE_DELETE) :
    s.handleKeyEvent E ev = s.handleDeleteKeyEvent E ev := by
  unfold handleKeyEvent
  have h0 : s.mode ≠ 0 := by rw [h]; decide
  have h1 : s.mode ≠ MODE_BROWSE := by rw [h]; decide
  have h2 : s.mode &&& MODE_CHANGE ≠ MODE_CHANGE := by rw [h]; decide
  have h3 : s.mode &&& MODE_INSERT ≠ MODE_INSERT := by rw [h]; decide
  simp only [h0, if_false, h1, h2, h3]
  rw [if_pos h]

/-- Every insert mode is dispatched to the insert handler. -/
theorem handleKeyEvent_insert_modes (E : Env W) (s : BrowserScreen W) (ev : Event)
    (h : s.mode = MODE_INSERT_BUCKET ∨ s.mode = MODE_INSERT_BUCKET ||| MODE_MOD_TO_PARENT ∨
      s.mode = MODE_INSERT_PAIR ∨ s.mode = MODE_INSERT_PAIR ||| MODE_MOD_TO_PARENT) :
    s.handleKeyEvent E ev = s.handleInsertKeyEvent E ev := by
  apply handleKeyEvent_insert <;> rcases h with h | h | h | h <;> rw [h] <;> decide

/-- Every rename or edit mode is dispatched to the input handler. -/
theorem handleKeyEvent_input_modes (E : Env W) (s : BrowserScreen W) (ev : Event)
    (h : s.mode = MODE_CHANGE_KEY ∨ s.mode = MODE_CHANGE_VAL ∨
      s.mode = MODE_CHANGE_KEY ||| MODE_MOD_TO_PARENT ∨
      s.mode = MODE_CHANGE_VAL ||| MODE_MOD_TO_PARENT) :
    s.handleKeyEvent E ev = s.handleInputKeyEvent E ev := by
  apply handleKeyEvent_input <;> rcases h with h | h | h | h <;> rw [h] <;> decide

/-- C5 (as amended): the mode after `handleKeyEvent` is `MODE_BROWSE`, and the
handler returns the browser screen, in these cases: in a rename-key or
edit-value mode (with or without the parent modifier) on Esc and on a
completed input; in an insert-bucket or insert-pair mode (with or without the
modifier) on Esc when the forest is not empty; in an insert-bucket mode on a
completed input; in an insert-pair mode on a completed input whose store insert
fails; in the delete-confirm mode on any key after which the confirmation is
done, when it is declined or `deleteKey` fails, and, when it is accepted and
`deleteKey` succeeds, if the captured next path is at most one segment longer
than the cursor path. -/
theorem C5_editing_modes_return_to_browse (E : Env W) (s : BrowserScreen W) (ev : Event) :
    ((s.mode = MODE_CHANGE_KEY ∨ s.mode = MODE_CHANGE_VAL ∨
        s.mode = MODE_CHANGE_KEY ||| MODE_MOD_TO_PARENT ∨
        s.mode = MODE_CHANGE_VAL ||| MODE_MOD_TO_PARENT) →
      (ev.Key = KeyEsc ∨ (E.inputKey s.input_modal ev).isDone = true) →
      ∃ s2, s.handleKeyEvent E ev = some (s2, BROWSER_SCREEN_INDEX) ∧ s2.mode = MODE_BROWSE) ∧
    ((s.mode = MODE_INSERT_BUCKET ∨ s.mode = MODE_INSERT_BUCKET ||| MODE_MOD_TO_PARENT ∨
        s.mode = MODE_INSERT_PAIR ∨ s.mode = MODE_INSERT_PAIR ||| MODE_MOD_TO_PARENT) →
      ev.Key = KeyEsc → s.db.buckets ≠ [] →
      ∃ s2, s.handleKeyEvent E ev = some (s2, BROWSER_SCREEN_INDEX) ∧ s2.mode = MODE_BROWSE) ∧
    ((s.mode = MODE_INSERT_BUCKET ∨ s.mode = MODE_INSERT_BUCKET ||| MODE_MOD_TO_PARENT) →
      ev.Key ≠ KeyEsc → (E.inputKey s.input_modal ev).isDone = true →
      ∃ s2, s.handleKeyEvent E ev = some (s2, BROWSER_SCREEN_INDEX) ∧ s2.mode = MODE_BROWSE) ∧
    ((s.mode = MODE_INSERT_PAIR ∨ s.mode = MODE_INSERT_PAIR ||| MODE_MOD_TO_PARENT) →
      ev.Key ≠ KeyEsc → (E.inputKey s.input_modal ev).isDone = true →
      (E.exec s.world
        (.insertPair (s.insertPath E).2 (E.inputKey s.input_modal ev).value "")).1 ≠ none →
      ∃ s2, s.handleKeyEvent E ev = some (s2, BROWSER_SCREEN_INDEX) ∧ s2.mode = MODE_BROWSE) ∧
    (s.mode = MODE_DELETE → (E.confirmKey s.confirm_modal ev).isDone = true →
      ((E.confirmKey s.confirm_modal ev).accepted = true →
        (E.exec s.world (.deleteKey s.current_path)).1 = none →
        ∀ nn, s.db.getNextVisiblePath (some s.current_path) = some nn →
          nn.length ≤ s.current_path.length + 1) →
      ∃ s2, s.handleKeyEvent E ev = some (s2, BROWSER_SCREEN_INDEX) ∧ s2.mode = MODE_BROWSE) := by
  refine ⟨?_, ?_, ?_, ?_, ?_⟩
  · intro hm h
    rw [handleKeyEvent_input_modes E s ev hm]
    exact handleInputKeyEvent_browse E s ev h
  · intro hm hkey hne
    rw [handleKeyEvent_insert_modes E s ev hm]
    obtain ⟨s2, h, hmode, -⟩ := handleInsertKeyEvent_esc E s ev hkey hne
    exact ⟨s2, h, hmode⟩
  · intro hm hkey hdone
    rw [handleKeyEvent_insert_modes E s ev
      (by rcases hm with h | h; exact Or.inl h; exact Or.inr (Or.inl h))]
    obtain ⟨s2, h, hmode, -⟩ := handleInsertKeyEvent_bucket_done E s ev hm hkey hdone
    exact ⟨s2, h, hmode⟩
  · intro hm hkey hdone herr
    rw [handleKeyEvent_insert_modes E s ev
      (by rcases hm with h | h; exact Or.inr (Or.inr (Or.inl h)); exact Or.inr (Or.inr (Or.inr h)))]
    cases hr : (E.exec s.world
        (.insertPair (s.insertPath E).2 (E.inputKey s.input_modal ev).value "")).1 with
    | none => exact absurd hr herr
    | some err =>
      obtain ⟨s2, h, hmode, -⟩ := handleInsertKeyEvent_pair_failed E s ev err hm hkey hdone hr
      exact ⟨s2, h, hmode⟩
  · intro hm hdone hlen
    rw [handleKeyEvent_delete E s ev hm]
    exact handleDeleteKeyEvent_browse E s ev hdone hlen

/-- Witness of C5: Esc in the rename-key mode on `oneRoot` returns to browse
mode; and on `deepForest` with the cursor on the pair `R/A/x` in the
delete-confirm mode, an accepted confirmation whose delete succeeds, the
captured next path `R/A/y` being as long as the cursor path, returns to
browse mode. -/
theorem C5_editing_modes_return_to_browse_witness :
    (exampleScreen oneRoot ["A"] MODE_CHANGE_KEY).mode = MODE_CHANGE_KEY ∧
    escEvent.Key = KeyEsc ∧
    (∃ s2, (exampleScreen oneRoot ["A"] MODE_CHANGE_KEY).handleKeyEvent
        (exampleEnv none oneRoot "") escEvent = some (s2, BROWSER_SCREEN_INDEX) ∧
      s2.mode = MODE_BROWSE) ∧
    deepForest.getNextVisiblePath (some ["R", "A", "x"]) = some ["R", "A", "y"] ∧
    (∃ s2, (exampleScreen deepForest ["R", "A", "x"] MODE_DELETE).handleKeyEvent
        (exampleEnv none deepForestAfter "") (chEvent 'y') = some (s2, BROWSER_SCREEN_INDEX) ∧
      s2.mode = MODE_BROWSE) := by
  have hn : deepForest.getNextVisiblePath (some ["R", "A", "x"]) = some ["R", "A", "y"] := by
    decide
  refine ⟨rfl, rfl, ?_, hn, ?_⟩
  · exact (C5_editing_modes_return_to_browse (exampleEnv none oneRoot "")
      (exampleScreen oneRoot ["A"] MODE_CHANGE_KEY) escEvent).1 (Or.inl rfl) (Or.inl rfl)
  · refine (C5_editing_modes_return_to_browse (exampleEnv none deepForestAfter "")
      (exampleScreen deepForest ["R", "A", "x"] MODE_DELETE) (chEvent 'y')).2.2.2.2 rfl rfl ?_
    intro _ _ nn h
    have h2 : some ["R", "A", "y"] = some nn := hn.symm.trans h
    cases h2
    decide

/-- Counterexample to C5 as stated.  In the insert-pair mode on `oneRoot` with
the cursor on `A`, the key that completes the input with the name `z`, the
store accepting the insert, leaves the mode at `MODE_CHANGE_VAL`, not at
`MODE_BROWSE`.  Esc in the forced insert mode over the empty forest returns
`EXIT_SCREEN_INDEX` and leaves the mode as it is.  Esc in the delete-confirm
mode, with a confirmation widget that completes on `y` and `n` only, leaves
the mode at `MODE_DELETE`.  And on `slashForest` with the cursor on `A`, whose
captured next path `A/x/y` has three segments, an accepted confirmation whose
delete succeeds makes the handler fail, so no mode results. -/
theorem C5_counterexample :
    ((exampleEnv none oneRootWithZ "z").inputKey
      (exampleScreen oneRoot ["A"] MODE_INSERT_PAIR).input_modal (chEvent 'z')).isDone = true ∧
    ((exampleScreen oneRoot ["A"] MODE_INSERT_PAIR).handleKeyEvent
      (exampleEnv none oneRootWithZ "z") (chEvent 'z')).map (fun r => (r.1.mode, r.2)) =
        some (MODE_CHANGE_VAL, BROWSER_SCREEN_INDEX) ∧
    MODE_CHANGE_VAL ≠ MODE_BROWSE ∧
    ((exampleScreen emptyForest [] (MODE_INSERT_BUCKET ||| MODE_MOD_TO_PARENT)).handleKeyEvent
      (exampleEnv none emptyForest "") escEvent).map (fun r => (r.1.mode, r.2)) =
        some (MODE_INSERT_BUCKET ||| MODE_MOD_TO_PARENT, EXIT_SCREEN_INDEX) ∧
    ((exampleScreen oneRoot ["A"] MODE_DELETE).handleKeyEvent ynEnv escEvent).map
      (fun r => (r.1.mode, r.2)) = some (MODE_DELETE, BROWSER_SCREEN_INDEX) ∧
    slashForest.getNextVisiblePath (some ["A"]) = some ["A", "x", "y"] ∧
    ((exampleEnv none oneRoot "").confirmKey
      (exampleScreen slashForest ["A"] MODE_DELETE).confirm_modal (chEvent 'y')).isDone = true ∧
    ((exampleScreen slashForest ["A"] MODE_DELETE).handleKeyEvent
      (exampleEnv none oneRoot "") (chEvent 'y')).map (fun r => r.1.mode) = none := by
  refine ⟨by decide, by decide, by decide, by decide, by decide, by decide, by decide,
    by decide⟩

end Dispatch

section Draw

variable {W : Type}

/-- No path resolves to a container in the empty list of containers. -/
theorem bucketPtrFromPath_nil (path : List String) : bucketPtrFromPath [] path = none := by
  cases path with
  | nil => rfl
  | cons n rest =>
    cases rest with
    | nil => simp [bucketPtrFromPath, findBucket]
    | cons m r => simp [bucketPtrFromPath, findBucket]

/-- No path resolves to a pair in the empty forest. -/
theorem getGenericFromPath_p_empty (db : BoltDB) (path : List String)
    (h : db.buckets = []) : (db.getGenericFromPath path).p = none := by
  unfold BoltDB.getGenericFromPath
  by_cases h0 : path = []
  · simp [h0]
  · have hp : pairPtrFromPath db.buckets path = none := by
      unfold pairPtrFromPath
      rw [h]
      cases path.getLast? with
      | none => rfl
      | some k => simp [bucketPtrFromPath_nil]
    rw [h] at hp
    simp only [h0, if_false, h, hp, bucketPtrFromPath_nil]

/-- The title computation succeeds for a bucket title when the modal is at
least fifteen columns wide. -/
theorem insertTitle_bucket (ins_path : String) (inp_w : Int) (h : 15 ≤ inp_w) :
    insertTitle (titlePrfx TYPE_BUCKET) ins_path inp_w = some () := by
  have h12 : strLen (titlePrfx TYPE_BUCKET) = 12 := by decide
  unfold insertTitle
  simp only [h12]
  split_ifs with h1 h2
  · rfl
  · exact absurd (by omega) h2
  · rfl

/-- The insert modal is at least fifteen columns wide on a terminal of at
least sixteen columns. -/
theorem insertModalWidth_ge (E : Env W) (h : 16 ≤ E.width) : 15 ≤ insertModalWidth E := by
  unfold insertModalWidth
  split_ifs with h1
  · rw [Int.tdiv_eq_ediv (by omega) (by omega)]; omega
  · omega

/-- The forced bucket insert over the empty forest: `startInsertItemAtParent`
returns with the parent-level insert-bucket mode, for the empty cursor path
and, on a terminal of at least sixteen columns, for every cursor path. -/
theorem startInsertItemAtParent_bucket (E : Env W) (s : BrowserScreen W)
    (hempty : s.db.buckets = [])
    (hfit : s.current_path = [] ∨ 16 ≤ E.width) :
    ∃ s2, s.startInsertItemAtParent E TYPE_BUCKET = some (s2, true) ∧
      s2.mode = MODE_INSERT_BUCKET ||| MODE_MOD_TO_PARENT ∧ s2.db = s.db ∧
      s2.current_path = s.current_path ∧ s2.calls = s.calls ∧ s2.world = s.world ∧
      s2.message = s.message := by
  unfold startInsertItemAtParent
  by_cases h0 : s.current_path = []
  · simp only [h0, List.length_nil, Int.ofNat_zero, Nat.cast_zero, le_refl, if_true]
    exact ⟨_, rfl, rfl, rfl, rfl, rfl, rfl, rfl⟩
  · have hw : 16 ≤ E.width := by
      rcases hfit with h | h
      · exact absurd h h0
      · exact h
    have hlen : 0 < s.current_path.length := List.length_pos.mpr h0
    have hnot : ¬ ((s.current_path.length : Int) ≤ 0) := by omega
    have hs : sliceTo s.current_path ((s.current_path.length : Int) - 1) =
        some (s.current_path.take (s.current_path.length - 1)) := by
      have e1 : ((s.current_path.length : Int) - 1).toNat = s.current_path.length - 1 := by
        omega
      have c1 : (0 : Int) ≤ (s.current_path.length : Int) - 1 ∧
          (s.current_path.length : Int) - 1 ≤ (s.current_path.length : Int) := by omega
      simp [sliceTo, c1, e1]
    simp only [hnot, if_false, hs, getGenericFromPath_p_empty _ _ hempty, ne_eq,
      not_true_eq_false, and_false, insertTitle_bucket _ _ (insertModalWidth_ge E hw), if_true]
    exact ⟨_, rfl, rfl, rfl, rfl, rfl, rfl, rfl⟩

/-- Drawing the left pane of the empty forest returns, draws no row and
changes neither the mode, the forest nor the call log. -/
theorem drawLeftPane_empty (E : Env W) (s : BrowserScreen W) (style : Style)
    (hempty : s.db.buckets = []) :
    ∃ s2, s.drawLeftPane E style = some (s2, []) ∧ s2.mode = s.mode ∧ s2.db = s.db ∧
      s2.calls = s.calls ∧ s2.world = s.world ∧ s2.message = s.message ∧
      s2.message_timeout = s.message_timeout ∧ s2.message_time = s.message_time := by
  unfold drawLeftPane
  by_cases h0 : s.current_path.length = 0 <;>
    simp only [h0, if_true, if_false, hempty, drawRoots] <;>
    exact ⟨_, rfl, rfl, rfl, rfl, rfl, rfl, rfl, rfl⟩

/-- The header is drawn on every terminal of non-negative width. -/
theorem drawHeader_some (E : Env W) (s : BrowserScreen W) (style : Style)
    (h : 0 ≤ E.width) : s.drawHeader E style = some () := by
  unfold drawHeader strings.Repeat
  have : ¬ (E.width.tdiv 2 < 0) := by
    rw [Int.tdiv_eq_ediv (by omega) (by omega)]; omega
  simp [this]

/-- The footer changes neither the mode, the forest nor the call log. -/
theorem drawFooter_frame (E : Env W) (s : BrowserScreen W) (style : Style) :
    (s.drawFooter E style).mode = s.mode ∧ (s.drawFooter E style).db = s.db ∧
    (s.drawFooter E style).calls = s.calls ∧ (s.drawFooter E style).world = s.world := by
  unfold drawFooter clearMessage
  split_ifs <;> exact ⟨rfl, rfl, rfl, rfl⟩

/-- The part of `drawScreen` after the forced insert, over the empty forest on
a terminal of non-negative width: it returns and changes neither the mode, the
forest, the file nor the call log. -/
theorem drawScreen_rest_empty (E : Env W) (s1 : BrowserScreen W) (style : Style)
    (hempty : s1.db.buckets = []) (hw : 0 ≤ E.width) :
    ∃ s2,
      (match
          (if s1.message = "" then s1.setMessageWithTimeout E "Press '?' for help" (-1)
            else s1).drawLeftPane E style with
        | none => none
        | some r =>
          match r.1.drawHeader E style with
          | none => none
          | some _ => some (r.1.drawFooter E style)) = some s2 ∧
      s2.mode = s1.mode ∧ s2.db = s1.db ∧ s2.calls = s1.calls ∧ s2.world = s1.world := by
  have key : ∀ t : BrowserScreen W, t.db = s1.db → t.mode = s1.mode → t.calls = s1.calls →
      t.world = s1.world →
      ∃ s2,
        (match t.drawLeftPane E style with
          | none => none
          | some r =>
            match r.1.drawHeader E style with
            | none => none
            | some _ => some (r.1.drawFooter E style)) = some s2 ∧
        s2.mode = s1.mode ∧ s2.db = s1.db ∧ s2.calls = s1.calls ∧ s2.world = s1.world := by
    intro t hdb hm hc hwd
    obtain ⟨t2, h2, hm2, hdb2, hc2, hw2, -⟩ := drawLeftPane_empty E t style (by rw [hdb, hempty])
    obtain ⟨f1, f2, f3, f4⟩ := drawFooter_frame E t2 style
    simp only [h2, drawHeader_some E t2 style hw]
    exact ⟨_, rfl, by rw [f1, hm2, hm], by rw [f2, hdb2, hdb], by rw [f3, hc2, hc],
      by rw [f4, hw2, hwd]⟩
  by_cases hmsg : s1.message = ""
  · simp only [hmsg, if_true]
    exact key _ rfl rfl rfl rfl
  · simp only [hmsg, if_false]
    exact key _ rfl rfl rfl rfl

/-- The forced insert and Esc, where the code returns.  Over the empty forest
on a terminal of non-negative width, `drawScreen` returns and leaves the mode
at `MODE_INSERT_BUCKET | MODE_MOD_TO_PARENT` when the prior mode does not
contain the `MODE_INSERT_BUCKET` bits (for the empty `current_path` at every
width, for every `current_path` from sixteen columns on), and leaves a prior
mode that contains them unchanged; Esc then handled by `handleKeyEvent` in the
forced mode returns `EXIT_SCREEN_INDEX` with the screen unchanged; over a
non-empty forest, Esc in an insert mode returns `BROWSER_SCREEN_INDEX` with
mode `MODE_BROWSE`, `current_path` unchanged and no store mutation. -/
theorem drawScreen_forced_insert_and_esc (E : Env W) (s : BrowserScreen W) (style : Style)
    (ev : Event) (hkey : ev.Key = KeyEsc) :
    (s.db.buckets = [] → 0 ≤ E.width →
      s.mode &&& MODE_INSERT_BUCKET ≠ MODE_INSERT_BUCKET →
      (s.current_path = [] ∨ 16 ≤ E.width) →
      ∃ s2, s.drawScreen E style = some s2 ∧
        s2.mode = MODE_INSERT_BUCKET ||| MODE_MOD_TO_PARENT ∧
        s2.calls = s.calls ∧ s2.world = s.world ∧
        s2.handleKeyEvent E ev = some (s2, EXIT_SCREEN_INDEX)) ∧
    (s.db.buckets = [] → 0 ≤ E.width →
      s.mode &&& MODE_INSERT_BUCKET = MODE_INSERT_BUCKET →
      ∃ s2, s.drawScreen E style = some s2 ∧ s2.mode = s.mode) ∧
    (s.db.buckets ≠ [] →
      (s.mode = MODE_INSERT_BUCKET ∨ s.mode = MODE_INSERT_BUCKET ||| MODE_MOD_TO_PARENT ∨
        s.mode = MODE_INSERT_PAIR ∨ s.mode = MODE_INSERT_PAIR ||| MODE_MOD_TO_PARENT) →
      ∃ s2, s.handleKeyEvent E ev = some (s2, BROWSER_SCREEN_INDEX) ∧
        s2.mode = MODE_BROWSE ∧ s2.current_path = s.current_path ∧
        s2.calls = s.calls ∧ s2.world = s.world) := by
  refine ⟨?_, ?_, ?_⟩
  · intro hempty hw hbits hfit
    obtain ⟨s1, h1, hm1, hdb1, -, hc1, hw1, -⟩ :=
      startInsertItemAtParent_bucket E s hempty hfit
    obtain ⟨s2, h2, hm2, hdb2, hc2, hw2⟩ :=
      drawScreen_rest_empty E s1 style (by rw [hdb1, hempty]) hw
    refine ⟨s2, ?_, by rw [hm2, hm1], by rw [hc2, hc1], by rw [hw2, hw1], ?_⟩
    · unfold drawScreen
      have hl : s.db.buckets.length = 0 := by simp [hempty]
      simp only [hl, hbits, ne_eq, not_false_eq_true, and_self, if_true, h1, Option.map_some']
      exact h2
    · have hmode : s2.mode = MODE_INSERT_BUCKET ||| MODE_MOD_TO_PARENT := by rw [hm2, hm1]
      rw [handleKeyEvent_insert_modes E s2 ev (Or.inr (Or.inl hmode))]
      unfold handleInsertKeyEvent
      have hl : s2.db.buckets.length = 0 := by simp [hdb2, hdb1, hempty]
      simp only [hkey, if_true, hl]
  · intro hempty hw hbits
    obtain ⟨s2, h2, hm2, -⟩ := drawScreen_rest_empty E s style hempty hw
    refine ⟨s2, ?_, hm2⟩
    unfold drawScreen
    simp only [hbits, ne_eq, not_true_eq_false, and_false, if_false]
    exact h2
  · intro hne hm
    rw [handleKeyEvent_insert_modes E s ev hm]
    obtain ⟨s2, h, hmode, hcp, hc, hwd, -⟩ := handleInsertKeyEvent_esc E s ev hkey hne
    exact ⟨s2, h, hmode, hcp, hc, hwd⟩

/-- C6, the code at the failing input.  Over the empty forest on a terminal
thirteen columns wide, the first `drawScreen` forces the parent-level
insert-bucket mode; the key that completes the input with the name `N`, the
store rejecting the insert, leaves `current_path = [N]` in browse mode over
the still empty forest; the next `drawScreen` forces the insert again, and
there the title `New Bucket: /` has thirteen bytes, one more than the modal
width, so that `ins_path[trunc_w+3:]` is out of range: `drawScreen` does not
return and no mode results.  On a terminal fourteen columns wide the same
steps end in the forced mode. -/
theorem C6_forced_insert_title_out_of_range :
    ((exampleScreen emptyForest [] MODE_BROWSE).drawScreen failingEnv13 defaultStyle).map
      (fun r => (r.mode, r.current_path)) =
        some (MODE_INSERT_BUCKET ||| MODE_MOD_TO_PARENT, []) ∧
    (((exampleScreen emptyForest [] MODE_BROWSE).drawScreen failingEnv13 defaultStyle).bind
      (fun r => r.handleKeyEvent failingEnv13 (chEvent 'N'))).map
        (fun r => (r.1.current_path, r.1.mode, r.1.db.buckets.length, r.1.calls, r.2)) =
      some (["N"], MODE_BROWSE, 0, [.insertBucket [] "N"], BROWSER_SCREEN_INDEX) ∧
    ((((exampleScreen emptyForest [] MODE_BROWSE).drawScreen failingEnv13 defaultStyle).bind
      (fun r => r.handleKeyEvent failingEnv13 (chEvent 'N'))).bind
        (fun r => r.1.drawScreen failingEnv13 defaultStyle)).map (fun r => r.mode) = none ∧
    insertTitle (titlePrfx TYPE_BUCKET) "/" (insertModalWidth failingEnv13) = none ∧
    ((((exampleScreen emptyForest [] MODE_BROWSE).drawScreen failingEnv14 defaultStyle).bind
      (fun r => r.handleKeyEvent failingEnv14 (chEvent 'N'))).bind
        (fun r => r.1.drawScreen failingEnv14 defaultStyle)).map (fun r => r.mode) =
      some (MODE_INSERT_BUCKET ||| MODE_MOD_TO_PARENT) := by
  refine ⟨by decide, by decide, by decide, by decide, by decide⟩

end Draw

section Errors

variable {W : Type}

/-- A message built as `err => path` is not empty. -/
theorem errMessage_ne_empty (err : String) (path : List String) :
    err ++ " => " ++ fmtPath path ≠ "" := by
  intro h
  have h2 := congrArg String.length h
  simp at h2
  exact absurd h2.1.2 (by decide)

/-- C7 (as amended): when a store mutation the controller invokes returns an
error, the handler returns `BROWSER_SCREEN_INDEX`, never `EXIT_SCREEN_INDEX`,
and: after a failed `renameBucket` the message is the fixed text
`Error renaming bucket.`; after a failed `updatePairKey` or `updatePairValue`
it is the fixed text `Error occurred updating Pair.`; after a failed
`insertBucket` or `insertPair` it is the error followed by ` => ` and the
anchor path as Go prints a slice.  Every one of these messages is non-empty;
only the insert messages include a path. -/
theorem C7_failed_mutation_messages (E : Env W) (s : BrowserScreen W) (ev : Event) :
    (s.mode = MODE_CHANGE_KEY → ev.Key ≠ KeyEsc →
      (E.inputKey s.input_modal ev).isDone = true →
      (s.db.getGenericFromPath s.current_path).b ≠ none →
      (E.exec s.world
        (.renameBucket s.current_path (E.inputKey s.input_modal ev).value)).1 ≠ none →
      ∃ s2, s.handleInputKeyEvent E ev = some (s2, BROWSER_SCREEN_INDEX) ∧
        s2.message = "Error renaming bucket." ∧ s2.message ≠ "") ∧
    (s.mode = MODE_CHANGE_KEY → ev.Key ≠ KeyEsc →
      (E.inputKey s.input_modal ev).isDone = true →
      (s.db.getGenericFromPath s.current_path).p ≠ none →
      (E.exec s.world
        (.updatePairKey s.current_path (E.inputKey s.input_modal ev).value)).1 ≠ none →
      ∃ s2, s.handleInputKeyEvent E ev = some (s2, BROWSER_SCREEN_INDEX) ∧
        s2.message = "Error occurred updating Pair." ∧ s2.message ≠ "") ∧
    (s.mode = MODE_CHANGE_VAL → ev.Key ≠ KeyEsc →
      (E.inputKey s.input_modal ev).isDone = true →
      (s.db.getGenericFromPath s.current_path).p ≠ none →
      (E.exec s.world
        (.updatePairValue s.current_path (E.inputKey s.input_modal ev).value)).1 ≠ none →
      ∃ s2, s.handleInputKeyEvent E ev = some (s2, BROWSER_SCREEN_INDEX) ∧
        s2.message = "Error occurred updating Pair." ∧ s2.message ≠ "") ∧
    ((s.mode = MODE_INSERT_BUCKET ∨ s.mode = MODE_INSERT_BUCKET ||| MODE_MOD_TO_PARENT) →
      ev.Key ≠ KeyEsc → (E.inputKey s.input_modal ev).isDone = true →
      ∀ err, (E.exec s.world
        (.insertBucket (s.insertPath E).2 (E.inputKey s.input_modal ev).value)).1 = some err →
      ∃ s2, s.handleInsertKeyEvent E ev = some (s2, BROWSER_SCREEN_INDEX) ∧
        s2.message = err ++ " => " ++ fmtPath (s.insertPath E).2 ∧ s2.message ≠ "") ∧
    ((s.mode = MODE_INSERT_PAIR ∨ s.mode = MODE_INSERT_PAIR ||| MODE_MOD_TO_PARENT) →
      ev.Key ≠ KeyEsc → (E.inputKey s.input_modal ev).isDone = true →
      ∀ err, (E.exec s.world
        (.insertPair (s.insertPath E).2 (E.inputKey s.input_modal ev).value "")).1 = some err →
      ∃ s2, s.handleInsertKeyEvent E ev = some (s2, BROWSER_SCREEN_INDEX) ∧
        s2.message = err ++ " => " ++ fmtPath (s.insertPath E).2 ∧ s2.message ≠ "") ∧
    ((E.confirmKey s.confirm_modal ev).isDone = true →
      (E.confirmKey s.confirm_modal ev).accepted = true →
      (E.exec s.world (.deleteKey s.current_path)).1 ≠ none →
      ∃ s2, s.handleDeleteKeyEvent E ev = some (s2, BROWSER_SCREEN_INDEX)) := by
  refine ⟨?_, ?_, ?_, ?_, ?_, ?_⟩
  · intro hmode hkey hdone hb herr
    unfold handleInputKeyEvent
    simp only [hkey, if_false, hdone, if_true, hmode]
    cases hb2 : (s.db.getGenericFromPath s.current_path).b with
    | none => exact absurd hb2 hb
    | some b =>
      simp only [invoke_err, herr, ne_eq, not_false_eq_true, if_true]
      refine ⟨_, rfl, rfl, ?_⟩
      show ("Error renaming bucket." : String) ≠ ""
      decide
  · intro hmode hkey hdone hp herr
    unfold handleInputKeyEvent
    simp only [hkey, if_false, hdone, if_true, hmode]
    cases hp2 : (s.db.getGenericFromPath s.current_path).p with
    | none => exact absurd hp2 hp
    | some p =>
      obtain ⟨-, -, hb, -⟩ := getGenericFromPath_p s.db s.current_path p hp2
      simp only [hb, invoke_err, herr, ne_eq, not_false_eq_true, if_true]
      refine ⟨_, rfl, rfl, ?_⟩
      show ("Error occurred updating Pair." : String) ≠ ""
      decide
  · intro hmode hkey hdone hp herr
    unfold handleInputKeyEvent
    have hne : ¬ (MODE_CHANGE_VAL = MODE_CHANGE_KEY) := by decide
    simp only [hkey, if_false, hdone, if_true, hmode]
    cases hp2 : (s.db.getGenericFromPath s.current_path).p with
    | none => exact absurd hp2 hp
    | some p =>
      obtain ⟨-, -, hb, -⟩ := getGenericFromPath_p s.db s.current_path p hp2
      simp only [hb, hne, if_false, invoke_err, herr, ne_eq, not_false_eq_true, if_true]
      refine ⟨_, rfl, rfl, ?_⟩
      show ("Error occurred updating Pair." : String) ≠ ""
      decide
  · intro hmode hkey hdone err herr
    obtain ⟨s2, h, -, -, -, hmsg⟩ := handleInsertKeyEvent_bucket_done E s ev hmode hkey hdone
    exact ⟨s2, h, hmsg err herr, by rw [hmsg err herr]; exact errMessage_ne_empty _ _⟩
  · intro hmode hkey hdone err herr
    obtain ⟨s2, h, -, -, hmsg⟩ :=
      handleInsertKeyEvent_pair_failed E s ev err hmode hkey hdone herr
    exact ⟨s2, h, hmsg, by rw [hmsg]; exact errMessage_ne_empty _ _⟩
  · intro hdone hacc herr
    unfold handleDeleteKeyEvent
    simp only [hdone, if_true, hacc, invoke_err, herr, if_false]
    exact ⟨_, rfl⟩

/-- Witness of C7: on `oneRoot` with the cursor on `A` in the insert-bucket
mode, a store that rejects the insert with `exists` leaves the message
`exists => [A]`. -/
theorem C7_failed_mutation_messages_witness :
    (exampleScreen oneRoot ["A"] MODE_INSERT_BUCKET).mode = MODE_INSERT_BUCKET ∧
    ∃ s2, (exampleScreen oneRoot ["A"] MODE_INSERT_BUCKET).handleInsertKeyEvent
        (exampleEnv (some "exists") oneRoot "N") (chEvent 'N') =
          some (s2, BROWSER_SCREEN_INDEX) ∧
      s2.message = "exists => [A]" := by
  refine ⟨rfl, ?_⟩
  obtain ⟨s2, h, hmsg, -⟩ :=
    (C7_failed_mutation_messages (exampleEnv (some "exists") oneRoot "N")
      (exampleScreen oneRoot ["A"] MODE_INSERT_BUCKET) (chEvent 'N')).2.2.2.1
      (Or.inl rfl) (by decide) rfl "exists" rfl
  refine ⟨s2, h, ?_⟩
  rw [hmsg]
  decide

/-- Counterexample to C7 as stated: on `oneRoot` with the cursor on `A`, a
rename that the store rejects leaves the message `Error renaming bucket.`,
in which the offending path `A` does not occur. -/
theorem C7_counterexample :
    ((exampleScreen oneRoot ["A"] MODE_CHANGE_KEY).handleInputKeyEvent
      (exampleEnv (some "exists") oneRoot "N") (chEvent 'N')).map
        (fun r => (r.1.calls, r.1.message, r.2)) =
      some ([.renameBucket ["A"] "N"], "Error renaming bucket.", BROWSER_SCREEN_INDEX) ∧
    ¬ ((strings.Join ["A"]).data <:+: "Error renaming bucket.".data) := by
  refine ⟨by decide, by decide⟩

end Errors

section Jump

variable {W : Type}

/-- With a distance that is zero or negative at the start the loop never
reaches distance zero after a decrement, so it leaves the cursor alone. -/
theorem jumpLoop_nonpos (find_path : String) (vs : List String) :
    ∀ (start_jump : Bool) (distance : Int) (cur : List String), distance ≤ 0 →
      jumpLoop find_path vs start_jump distance cur = cur := by
  induction vs with
  | nil => intro _ _ _ _; rfl
  | cons v rest ih =>
    intro start_jump distance cur hd
    unfold jumpLoop
    by_cases hv : v = find_path
    · have h1 : ¬ (distance - 1 = 0) := by omega
      simp only [hv, if_true, h1, if_false]
      exact ih true (distance - 1) cur (by omega)
    · simp only [hv, if_false]
      cases start_jump with
      | true =>
        have h1 : ¬ (distance - 1 = 0) := by omega
        simp only [if_true, h1, if_false]
        exact ih true (distance - 1) cur (by omega)
      | false =>
        simp only [Bool.false_eq_true, if_false]
        exact ih false distance cur hd

/-- When the joined cursor path is no entry of the rows, the jump never
starts, so the loop leaves the cursor alone. -/
theorem jumpLoop_not_mem (find_path : String) (vs : List String) :
    ∀ (distance : Int) (cur : List String), find_path ∉ vs →
      jumpLoop find_path vs false distance cur = cur := by
  induction vs with
  | nil => intro _ _ _; rfl
  | cons v rest ih =>
    intro distance cur hmem
    have hv : ¬ (v = find_path) := fun h => hmem (by simp [h])
    have hr : find_path ∉ rest := fun h => hmem (by simp [h])
    unfold jumpLoop
    simp only [hv, if_false, Bool.false_eq_true]
    exact ih distance cur hr

/-- When the loop leaves the cursor alone, `jumpCursorDown` ends on the last
visible path and `jumpCursorUp` on the first. -/
theorem jumpCursor_unmoved (s : BrowserScreen W) (distance : Int)
    (hdown : jumpLoop (strings.Join s.current_path) (s.db.buildVisiblePathSlice).1 false
      distance s.current_path = s.current_path)
    (hup : jumpLoop (strings.Join s.current_path) (s.db.buildVisiblePathSlice).1.reverse false
      distance s.current_path = s.current_path) :
    (s.jumpCursorDown distance).1.current_path =
      (((s.db.buildVisiblePathSlice).1.getLast?).map strings.Split).getD [] ∧
    (s.jumpCursorUp distance).1.current_path =
      (((s.db.buildVisiblePathSlice).1.head?).map strings.Split).getD [] := by
  have herr : (s.db.buildVisiblePathSlice).2 = none := rfl
  constructor
  · unfold jumpCursorDown
    simp only [herr, if_true, hdown]
    rfl
  · unfold jumpCursorUp
    simp only [herr, if_true, hup]
    rfl

/-- C8, the code at the failing input.  For every screen, a jump of distance
zero leaves the loop without a stop, since the distance is decremented before
it is compared with zero, and the fallback for an unmoved cursor then sends
the cursor to the far end: `jumpCursorDown(0)` to the last visible path,
`jumpCursorUp(0)` to the first.  On the example forest, whose visible sequence
is `A`, `A/B`, `A/C`, `A/x`, the jumps of distance zero started on the visible
path `A/B` end on `A/x` and on `A`, not on `A/B`; so does Ctrl-F in browse
mode on a terminal one row high, where half the height is zero. -/
theorem C8_jump_zero_moves :
    (∀ (W : Type) (s : BrowserScreen W),
      (s.jumpCursorDown 0).1.current_path =
        (((s.db.buildVisiblePathSlice).1.getLast?).map strings.Split).getD [] ∧
      (s.jumpCursorUp 0).1.current_path =
        (((s.db.buildVisiblePathSlice).1.head?).map strings.Split).getD []) ∧
    (exampleForest.buildVisiblePathSlice).1 = ["A", "A/B", "A/C", "A/x"] ∧
    strings.Join ["A", "B"] ∈ (exampleForest.buildVisiblePathSlice).1 ∧
    ((exampleScreen exampleForest ["A", "B"] MODE_BROWSE).jumpCursorDown 0).1.current_path =
      ["A", "x"] ∧
    ((exampleScreen exampleForest ["A", "B"] MODE_BROWSE).jumpCursorUp 0).1.current_path =
      ["A"] ∧
    ((exampleScreen exampleForest ["A", "B"] MODE_BROWSE).handleKeyEvent oneRowEnv
      ⟨KeyCtrlF, ' '⟩).map (fun r => (r.1.current_path, r.2)) =
      some (["A", "x"], BROWSER_SCREEN_INDEX) := by
  refine ⟨?_, by decide, by decide, by decide, by decide, by decide⟩
  intro W s
  exact jumpCursor_unmoved s 0 (jumpLoop_nonpos _ _ _ _ _ (le_refl 0))
    (jumpLoop_nonpos _ _ _ _ _ (le_refl 0))

/-- C9 (as amended): for every forest, every distance and every cursor path
whose joined form is no entry of the visible sequence, `jumpCursorDown` leaves
`current_path` at the last visible path and `jumpCursorUp` at the first
visible path (the empty path when nothing is visible). -/
theorem C9_jump_from_invisible (s : BrowserScreen W) (distance : Int)
    (hp : strings.Join s.current_path ∉ (s.db.buildVisiblePathSlice).1) :
    (s.jumpCursorDown distance).1.current_path =
      (((s.db.buildVisiblePathSlice).1.getLast?).map strings.Split).getD [] ∧
    (s.jumpCursorUp distance).1.current_path =
      (((s.db.buildVisiblePathSlice).1.head?).map strings.Split).getD [] :=
  jumpCursor_unmoved s distance (jumpLoop_not_mem _ _ _ _ hp)
    (jumpLoop_not_mem _ _ _ _ (fun h => hp (List.mem_reverse.mp h)))

/-- Witness of C9: on the example forest, from the path `Z`, which is not
visible, a jump of distance three goes down to `A/x` and up to `A`. -/
theorem C9_jump_from_invisible_witness :
    strings.Join ["Z"] ∉ (exampleForest.buildVisiblePathSlice).1 ∧
    ((exampleScreen exampleForest ["Z"] MODE_BROWSE).jumpCursorDown 3).1.current_path =
      ["A", "x"] ∧
    ((exampleScreen exampleForest ["Z"] MODE_BROWSE).jumpCursorUp 3).1.current_path =
      ["A"] := by
  have h := C9_jump_from_invisible (exampleScreen exampleForest ["Z"] MODE_BROWSE) 3
    (by decide)
  refine ⟨by decide, h.1.trans (by decide), h.2.trans (by decide)⟩

/-- Counterexample to C9 as stated: on the example forest the path `Z` is not
visible, and a jump of distance three started on it changes `current_path`,
down to `A/x` and up to `A`. -/
theorem C9_counterexample :
    strings.Join ["Z"] ∉ (exampleForest.buildVisiblePathSlice).1 ∧
    ((exampleScreen exampleForest ["Z"] MODE_BROWSE).jumpCursorDown 3).1.current_path ≠
      ["Z"] ∧
    ((exampleScreen exampleForest ["Z"] MODE_BROWSE).jumpCursorUp 3).1.current_path ≠
      ["Z"] := by
  refine ⟨by decide, by decide, by decide⟩

/-- C10, the code at the failing inputs: on the example forest, whose visible
sequence is `A`, `A/B`, `A/C`, `A/x` (four distinct entries, no slash and no
empty segment), `jumpCursorDown(2)` started on entry 0 stops on entry 1, not
on entry 2; `jumpCursorDown(1)` started on entry 0 ends on the last entry,
not on entry 1; `jumpCursorUp(2)` started on entry 3 stops on entry 2, not on
entry 1; `jumpCursorUp(1)` started on entry 3 ends on the first entry, not
on entry 2. -/
theorem C10_jump_off_by_one :
    (exampleForest.buildVisiblePathSlice).1 = ["A", "A/B", "A/C", "A/x"] ∧
    ((exampleScreen exampleForest ["A"] MODE_BROWSE).jumpCursorDown 2).1.current_path =
      ["A", "B"] ∧
    ((exampleScreen exampleForest ["A"] MODE_BROWSE).jumpCursorDown 1).1.current_path =
      ["A", "x"] ∧
    ((exampleScreen exampleForest ["A", "x"] MODE_BROWSE).jumpCursorUp 2).1.current_path =
      ["A", "C"] ∧
    ((exampleScreen exampleForest ["A", "x"] MODE_BROWSE).jumpCursorUp 1).1.current_path =
      ["A"] := by
  refine ⟨by decide, by decide, by decide, by decide, by decide⟩

end Jump

section Bounds

variable {W : Type}

/-- C12: in the reposition step of `handleDeleteKeyEvent`, for every non-empty
cursor path `c`, every captured next path `n` with `len(n) <= len(c) + 1` and
every captured previous path `p`, the accesses `n[len(n)-2]`, `c[len(c)-2]`
and `c[:len(n)-2]` (made only when `n` has more than two segments) and `c[:0]`
are in bounds, the step produces a new `current_path`, and the handler, on a
done and accepted confirmation whose delete succeeds, returns with that path
as `current_path`. -/
theorem C12_reposition_in_bounds (c : List String) (n p : Option (List String))
    (_hc : c ≠ [])
    (hlen : ∀ nn, n = some nn → nn.length ≤ c.length + 1) :
    (∀ nn, n = some nn → 2 < nn.length →
      (indexAt nn ((nn.length : Int) - 2)).isSome = true ∧
      (indexAt c ((c.length : Int) - 2)).isSome = true ∧
      (sliceTo c ((nn.length : Int) - 2)).isSome = true) ∧
    (sliceTo c 0).isSome = true ∧
    ∃ cp, deleteReposition c n p = some cp ∧
      ∀ (E : Env W) (s : BrowserScreen W) (ev : Event),
        s.current_path = c →
        s.db.getNextVisiblePath (some s.current_path) = n →
        s.db.getPrevVisiblePath (some s.current_path) = p →
        (E.confirmKey s.confirm_modal ev).isDone = true →
        (E.confirmKey s.confirm_modal ev).accepted = true →
        (E.exec s.world (.deleteKey s.current_path)).1 = none →
        ∃ s2, s.handleDeleteKeyEvent E ev = some (s2, BROWSER_SCREEN_INDEX) ∧
          s2.current_path = cp := by
  refine ⟨?_, ?_, ?_⟩
  · intro nn hn hlong
    have hl := hlen nn hn
    have e1 : ((nn.length : Int) - 2).toNat = nn.length - 2 := by omega
    have e2 : ((c.length : Int) - 2).toNat = c.length - 2 := by omega
    have p1 : (0 : Int) ≤ (nn.length : Int) - 2 := by omega
    have p2 : (0 : Int) ≤ (c.length : Int) - 2 := by omega
    have g1 : nn.length - 2 < nn.length := by omega
    have g2 : c.length - 2 < c.length := by omega
    have c1 : (0 : Int) ≤ (nn.length : Int) - 2 ∧
        (nn.length : Int) - 2 ≤ (c.length : Int) := by omega
    refine ⟨?_, ?_, ?_⟩
    · simp only [indexAt, p1, if_true, e1, List.getElem?_eq_getElem g1, Option.isSome_some]
    · simp only [indexAt, p2, if_true, e2, List.getElem?_eq_getElem g2, Option.isSome_some]
    · simp only [sliceTo, c1, and_self, if_true, Option.isSome_some]
  · simp [sliceTo]
  · obtain ⟨cp, hcp⟩ := deleteReposition_isSome c n p hlen
    refine ⟨cp, hcp, ?_⟩
    intro E s ev hc hn hp hdone hacc hok
    subst hc hn hp
    obtain ⟨s2, h, h2, -⟩ := handleDeleteKeyEvent_accepted E s ev hdone hacc hok cp hcp
    exact ⟨s2, h, h2⟩

/-- Witness of C12: with the cursor path `R/A`, the captured next path `R/B/y`
(three segments, another second-to-last segment) and no previous path, the
step takes the slice `c[:1]` and produces the path `R`. -/
theorem C12_reposition_in_bounds_witness :
    (["R", "A"] : List String) ≠ [] ∧
    (["R", "B", "y"] : List String).length ≤ (["R", "A"] : List String).length + 1 ∧
    (sliceTo ["R", "A"] (((["R", "B", "y"] : List String).length : Int) - 2)).isSome = true ∧
    deleteReposition ["R", "A"] (some ["R", "B", "y"]) none = some ["R"] := by
  have h := C12_reposition_in_bounds (W := Unit) ["R", "A"] (some ["R", "B", "y"]) none
    (by decide) (by intro nn h; cases h; decide)
  exact ⟨by decide, by decide, (h.1 _ rfl (by decide)).2.2, by decide⟩

end Bounds

section Rows

variable {W : Type}

mutual
/-- The paths of the rows of a container are its visible sequence. -/
theorem visibleRows_paths (pre : List String) :
    ∀ b : BoltBucket,
      (visibleRows pre b).map (fun r => strings.Join r.path) = visibleBucket pre b
  | .mk name pairs buckets expanded => by
    cases expanded with
    | false => simp [visibleRows, visibleBucket]
    | true =>
      simp only [visibleRows, visibleBucket, if_true, List.map_cons, List.map_append,
        List.map_map, visibleRowsList_paths (pre ++ [name]) buckets]
      rfl
/-- The paths of the rows of sibling containers are their visible sequence. -/
theorem visibleRowsList_paths (pre : List String) :
    ∀ bs : List BoltBucket,
      (visibleRowsList pre bs).map (fun r => strings.Join r.path) = visibleBuckets pre bs
  | [] => by simp [visibleRowsList, visibleBuckets]
  | b :: rest => by
    simp only [visibleRowsList, visibleBuckets, List.map_append, visibleRows_paths pre b,
      visibleRowsList_paths pre rest]
end

/-- The number of rows of a container is the length of its visible sequence. -/
theorem visibleRows_length (pre : List String) (b : BoltBucket) :
    (visibleRows pre b).length = (visibleBucket pre b).length := by
  rw [← visibleRows_paths pre b, List.length_map]

/-- The indentation of a row: `strings.Repeat` with twice the path length. -/
theorem repeat_indent (k : Nat) : strings.Repeat " " ((k : Int) * 2) = some (blanks (k * 2)) := by
  unfold strings.Repeat blanks
  have h : ¬ ((k : Int) * 2 < 0) := by omega
  have e : ((k : Int) * 2).toNat = k * 2 := by omega
  simp only [h, if_false, e]

/-- The padding of a row with a count that is not negative. -/
theorem repeat_pad (c : Int) (h : 0 ≤ c) : strings.Repeat " " c = some (blanks c.toNat) := by
  unfold strings.Repeat blanks
  have h2 : ¬ (c < 0) := by omega
  simp only [h2, if_false]

/-- The padding of a row with a negative count fails. -/
theorem repeat_neg (c : Int) (h : c < 0) : strings.Repeat " " c = none := by
  unfold strings.Repeat
  simp only [h, if_true]

/-- The expected calls of two runs of rows, one after the other. -/
theorem expectedCalls_append (w : Int) (cur : List String) (style : Style)
    (a b : List VisibleRow) :
    ∀ y : Int, expectedCalls w cur style y (a ++ b) =
      expectedCalls w cur style y a ++ expectedCalls w cur style (y + a.length) b := by
  induction a with
  | nil => intro y; simp [expectedCalls]
  | cons r rs ih =>
    intro y
    have e : y + (((r :: rs).length : Nat) : Int) = y + 1 + (rs.length : Int) := by
      rw [List.length_cons]; push_cast; omega
    show expectedCall w cur style y r :: expectedCalls w cur style (y + 1) (rs ++ b) =
      expectedCall w cur style y r :: expectedCalls w cur style (y + 1) rs ++
        expectedCalls w cur style (y + (((r :: rs).length : Nat) : Int)) b
    rw [ih (y + 1), e, List.cons_append]

/-- Method `drawPair` always returns: one row, the expected call of the pair
row, and the line count 1. -/
theorem drawPair_eq (E : Env W) (s : BrowserScreen W) (pre : List String) (bp : BoltPair)
    (style : Style) (y : Int) :
    s.drawPair E pre bp style y =
      some ([expectedCall (paneWidth E) s.current_path style y (pairRow pre bp)], 1) := by
  unfold drawPair
  simp only [repeat_indent]
  by_cases h : paneWidth E - strLen (blanks ((pre ++ [bp.key]).length * 2) ++ bp.key ++ ": " ++
      bp.val) > 0
  · simp only [h, if_true, repeat_pad _ (le_of_lt h)]
    rfl
  · simp only [h, if_false]
    have e : (paneWidth E - strLen (pairRow pre bp).label).toNat = 0 := by
      have : paneWidth E - strLen (pairRow pre bp).label ≤ 0 := not_lt.mp h
      omega
    simp only [expectedCall, e]
    have hb : blanks 0 = "" := rfl
    rw [hb, String.append_empty]
    rfl

/-- Pair rows fit every pane. -/
theorem pairRows_fit (w : Int) (pre : List String) (ps : List BoltPair) :
    (ps.map (pairRow pre)).all (rowFits w) = true := by
  simp [List.all_eq_true, rowFits, pairRow]

/-- The loop over the pairs always returns: the expected calls of the pair
rows from the row `y + used_lines` on, and the line count raised by their
number. -/
theorem drawPairs_eq (E : Env W) (s : BrowserScreen W) (pre : List String) (style : Style)
    (y : Int) (ps : List BoltPair) :
    ∀ used_lines : Int,
      s.drawPairs E pre style y ps used_lines =
        some (expectedCalls (paneWidth E) s.current_path style (y + used_lines)
            (ps.map (pairRow pre)),
          used_lines + (ps.length : Int)) := by
  induction ps with
  | nil =>
    intro used_lines
    simp [drawPairs, expectedCalls]
  | cons bp rest ih =>
    intro used_lines
    have e1 : y + (used_lines + 1) = y + used_lines + 1 := by omega
    have e2 : used_lines + 1 + (rest.length : Int) =
        used_lines + (((bp :: rest).length : Nat) : Int) := by
      rw [List.length_cons]; push_cast; omega
    simp only [drawPairs, drawPair_eq, ih (used_lines + 1), List.map_cons, expectedCalls,
      List.singleton_append, e1, e2]

mutual
/-- What `drawBucket` does on every container: when every row of its visible
sequence fits the pane it returns the expected calls of these rows, at the
consecutive screen rows from `y` on, and their number as line count; when a
container row does not fit, it fails. -/
theorem drawBucket_eq (E : Env W) (s : BrowserScreen W) (style : Style) :
    ∀ (b : BoltBucket) (pre : List String) (y : Int),
      s.drawBucket E pre style b y =
        if (visibleRows pre b).all (rowFits (paneWidth E)) = true then
          some (expectedCalls (paneWidth E) s.current_path style y (visibleRows pre b),
            ((visibleRows pre b).length : Int))
        else none
  | .mk name pairs buckets expanded, pre, y => by
    cases expanded with
    | false =>
      unfold drawBucket
      simp only [repeat_indent, Bool.false_eq_true, if_false, visibleRows, List.all_cons,
        List.all_nil, Bool.and_true, rowFits, Bool.not_true, Bool.false_or, decide_eq_true_eq,
        bucketLabel]
      by_cases hfit : strLen (blanks ((pre ++ [name]).length * 2) ++ "+ " ++ name) ≤ paneWidth E
      · simp only [hfit, if_true, repeat_pad _ (sub_nonneg.mpr hfit)]
        simp [expectedCalls, expectedCall]
      · simp only [hfit, if_false, repeat_neg _ (sub_neg.mpr (not_le.mp hfit))]
    | true =>
      unfold drawBucket
      simp only [repeat_indent, if_true, visibleRows, List.all_cons, List.all_append,
        pairRows_fit, Bool.and_true, rowFits, Bool.not_true, Bool.false_or, decide_eq_true_eq,
        bucketLabel, drawBucketLoop_eq E s style buckets (pre ++ [name]) y 1, drawPairs_eq]
      by_cases hfit :
          strLen (blanks ((pre ++ [name]).length * 2) ++ "- " ++ name ++ " ") ≤ paneWidth E
      · simp only [hfit, repeat_pad _ (sub_nonneg.mpr hfit), Bool.decide_true, Bool.true_and]
        by_cases hall :
            (visibleRowsList (pre ++ [name]) buckets).all
              (fun r => !r.isBucket || decide (strLen r.label ≤ paneWidth E)) = true
        · have hall2 : (visibleRowsList (pre ++ [name]) buckets).all
              (rowFits (paneWidth E)) = true := hall
          simp only [hall, hall2, if_true, expectedCalls, expectedCalls_append, List.length_cons,
            List.length_append, List.length_map]
          have e1 : y + (1 + ((visibleRowsList (pre ++ [name]) buckets).length : Int)) =
              y + 1 + ((visibleRowsList (pre ++ [name]) buckets).length : Int) := by omega
          simp [expectedCall, e1]
          omega
        · have hall2 : ¬ ((visibleRowsList (pre ++ [name]) buckets).all
              (rowFits (paneWidth E)) = true) := hall
          simp only [hall, hall2, if_false]
          simp
      · simp only [hfit, repeat_neg _ (sub_neg.mpr (not_le.mp hfit)), Bool.decide_false,
          Bool.false_and, Bool.false_eq_true, if_false]
        simp
/-- What the loop over the child containers does: when every row of their
visible sequences fits the pane it returns their expected calls from the row
`y + used_lines` on and the line count raised by their number; when a
container row does not fit, it fails. -/
theorem drawBucketLoop_eq (E : Env W) (s : BrowserScreen W) (style : Style) :
    ∀ (bs : List BoltBucket) (pre : List String) (y used_lines : Int),
      s.drawBucketLoop E pre style y bs used_lines =
        if (visibleRowsList pre bs).all (rowFits (paneWidth E)) = true then
          some (expectedCalls (paneWidth E) s.current_path style (y + used_lines)
              (visibleRowsList pre bs),
            used_lines + ((visibleRowsList pre bs).length : Int))
        else none
  | [], pre, y, used_lines => by
    simp [drawBucketLoop, visibleRowsList, expectedCalls]
  | b :: rest, pre, y, used_lines => by
    unfold drawBucketLoop
    rw [drawBucket_eq E s style b pre (y + used_lines)]
    simp only [visibleRowsList, List.all_append]
    by_cases h1 : (visibleRows pre b).all (rowFits (paneWidth E)) = true
    · simp only [h1, if_true, Bool.true_and]
      rw [drawBucketLoop_eq E s style rest pre y (used_lines + ((visibleRows pre b).length : Int))]
      by_cases h2 : (visibleRowsList pre rest).all (rowFits (paneWidth E)) = true
      · simp only [h2, if_true, expectedCalls_append, List.length_append]
        have e1 : y + (used_lines + ((visibleRows pre b).length : Int)) =
            y + used_lines + ((visibleRows pre b).length : Int) := by omega
        simp [e1]
        omega
      · simp only [h2, if_false]
        simp
    · simp only [h1, if_false, Bool.false_and, Bool.false_eq_true]
end

/-- Row `i` of the expected calls is the expected call of row `i` at the
screen row `y + i`. -/
theorem expectedCalls_getElem? (w : Int) (cur : List String) (style : Style)
    (rows : List VisibleRow) :
    ∀ (y : Int) (i : Nat),
      (expectedCalls w cur style y rows)[i]? =
        (rows[i]?).map (expectedCall w cur style (y + (i : Int))) := by
  induction rows with
  | nil => intro y i; simp [expectedCalls]
  | cons r rs ih =>
    intro y i
    cases i with
    | zero => simp [expectedCalls]
    | succ k =>
      have e : y + 1 + (k : Int) = y + ((k + 1 : Nat) : Int) := by push_cast; omega
      simp only [expectedCalls, List.getElem?_cons_succ, ih (y + 1) k, e]

/-- A container whose own label is longer than the pane makes `drawBucket`
fail, whatever else it holds. -/
theorem drawBucket_label_too_long (E : Env W) (s : BrowserScreen W) (style : Style)
    (pre : List String) (name : String) (pairs : List BoltPair) (buckets : List BoltBucket)
    (expanded : Bool) (y : Int)
    (h : paneWidth E < strLen (bucketLabel (pre ++ [name]) name expanded)) :
    s.drawBucket E pre style (.mk name pairs buckets expanded) y = none := by
  rw [drawBucket_eq]
  have hfit : ¬ (strLen (bucketLabel (pre ++ [name]) name expanded) ≤ paneWidth E) :=
    not_le.mpr h
  simp [visibleRows, rowFits, hfit]

/-- C11, what the code does: on every container and start row `y`,
`drawBucket` either returns the rows of the visible sequence of that subtree
(the paths of `visibleRows` are `visibleBucket`), row `i` drawn at the screen
row `y + i` with its label padded to the pane, and the length of that visible
sequence as line count, a collapsed container having the single row of
itself; or, when the label of a visible container row is longer than the
pane, it fails and returns nothing.  On the example container (`A` expanded
with `B` expanded and empty, `C` collapsed with child `D`, and pair `x`) on a
pane of fifty columns it draws `A`, `A/B`, `A/C`, `A/x` at the rows 2 to 5 and
returns 4; on the collapsed root container with a name of eighty bytes on a
terminal of eighty columns it fails. -/
theorem C11_drawBucket_rows :
    (∀ (W : Type) (E : Env W) (s : BrowserScreen W) (style : Style) (b : BoltBucket)
        (pre : List String) (y : Int),
      s.drawBucket E pre style b y =
        if (visibleRows pre b).all (rowFits (paneWidth E)) = true then
          some (expectedCalls (paneWidth E) s.current_path style y (visibleRows pre b),
            ((visibleBucket pre b).length : Int))
        else none) ∧
    (∀ (pre : List String) (b : BoltBucket),
      (visibleRows pre b).map (fun r => strings.Join r.path) = visibleBucket pre b) ∧
    (∀ (w : Int) (cur : List String) (style : Style) (rows : List VisibleRow) (y : Int)
        (i : Nat),
      (expectedCalls w cur style y rows)[i]? =
        (rows[i]?).map (expectedCall w cur style (y + (i : Int)))) ∧
    (∀ (pre : List String) (name : String) (pairs : List BoltPair)
        (buckets : List BoltBucket),
      visibleRows pre (.mk name pairs buckets false) =
        [⟨pre ++ [name], bucketLabel (pre ++ [name]) name false, true⟩]) ∧
    ((exampleScreen exampleForest ["A", "C"] MODE_BROWSE).drawBucket
        (exampleEnv none exampleForest "") [] defaultStyle exampleBucket 2).map
      (fun r => (r.1.map (fun c => (c.y, c.text.take 8, c.text.length, c.fg)), r.2)) =
      some ([(2, "  - A   ", 50, 0), (3, "    - B ", 50, 0), (4, "    + C ", 50, 8),
        (5, "    x: 1", 50, 0)], 4) ∧
    (visibleRows [] exampleBucket).map (fun r => strings.Join r.path) =
      ["A", "A/B", "A/C", "A/x"] ∧
    (exampleScreen emptyForest [] MODE_BROWSE).drawBucket env80 [] defaultStyle
      longNameBucket 2 = none := by
  refine ⟨?_, visibleRows_paths, ?_, ?_, by decide, by decide, by decide⟩
  · intro W E s style b pre y
    rw [drawBucket_eq, visibleRows_length]
  · intro w cur style rows y i
    exact expectedCalls_getElem? w cur style rows y i
  · intro pre name pairs buckets
    simp [visibleRows]

/-- C13, the code at the failing input: for the collapsed root container with
a name of eighty bytes on a terminal of eighty columns, the pane is eighty
columns wide, the label has eighty-four bytes, the padding count
`w - len(label)` passed to `strings.Repeat` is `-4`, `strings.Repeat` fails on
it and so does `drawBucket`; `drawPair`, with its guard, draws a pair whose
label is as long, unpadded, and returns 1. -/
theorem C13_drawBucket_negative_padding :
    paneWidth env80 = 80 ∧
    strLen (bucketLabel [longName] longName false) = 84 ∧
    paneWidth env80 - strLen (bucketLabel [longName] longName false) = -4 ∧
    strings.Repeat " " (paneWidth env80 - strLen (bucketLabel [longName] longName false)) =
      none ∧
    (exampleScreen emptyForest [] MODE_BROWSE).drawBucket env80 [] defaultStyle
      longNameBucket 2 = none ∧
    ((exampleScreen emptyForest [] MODE_BROWSE).drawPair env80 [] ⟨longName, "v"⟩
        defaultStyle 2).map (fun r => (r.1.map (fun c => (c.y, c.text.length)), r.2)) =
      some ([(2, 85)], 1) := by
  refine ⟨by decide, by decide, by decide, by decide, by decide, by decide⟩

end Rows

end BoltBrowser
